import Mathlib

/-!
Verification of the WhatsApp appeal bot core (`bot_part2.py`): a shallow
embedding of its message classifier, appeal lifecycle manager, response
generator, conversation-state store and orchestrating engine, together with
theorems settling the specified behaviour against the code.

Python dictionaries are embedded as insertion-ordered association lists
(`lookupA`, `insertA`, `eraseA` mirror `d.get`, `d[k] = v`, `del d[k]`); the
ambient clock (`datetime.utcnow()`) is threaded through every operation as an
explicit `now` parameter (ISO string) and `ts` parameter (the
second-resolution `strftime` string used by the id generator).
-/

def lookupA {α : Type} : List (String × α) → String → Option α
  | [], _ => none
  | (k, v) :: t, key => if k = key then some v else lookupA t key

def insertA {α : Type} : List (String × α) → String → α → List (String × α)
  | [], key, v => [(key, v)]
  | (k, w) :: t, key, v => if k = key then (key, v) :: t else (k, w) :: insertA t key v

def eraseA {α : Type} : List (String × α) → String → List (String × α)
  | [], _ => []
  | (k, w) :: t, key => if k = key then t else (k, w) :: eraseA t key

/-- Python `str.strip()` on the whitespace the inputs contain. -/
def pyStrip (l : List Char) : List Char :=
  ((l.dropWhile Char.isWhitespace).reverse.dropWhile Char.isWhitespace).reverse

/-- `re.search(pattern, hay)` for the literal keyword patterns of the intent
table: does `needle` occur as a contiguous substring of `hay`? -/
def isSubstr (needle : List Char) : List Char → Bool
  | [] => needle.isEmpty
  | c :: t => needle.isPrefixOf (c :: t) || isSubstr needle t

/-- The intent trigger table of `MessageHandler.extract_intent`, in its
priority (insertion) order. -/
def intent_patterns : List (String × List String) :=
  [("create_appeal", ["appeal", "complain", "report", "create", "new"]),
   ("check_status", ["status", "check", "progress", "update"]),
   ("provide_info", ["provide", "here", "attached", "additional"]),
   ("escalate", ["escalate", "urgent", "critical", "manager"]),
   ("close_appeal", ["close", "done", "resolve", "finish"]),
   ("get_help", ["help", "guide", "how", "assist"]),
   ("cancel", ["cancel", "never mind", "discard", "exit"])]

/-- `sum(1 for pattern in patterns if re.search(pattern, content_lower))`. -/
def countMatches (patterns : List String) (content : List Char) : Nat :=
  (patterns.filter (fun p => isSubstr p.data content)).length

/-- The scoring loop of `extract_intent`. The accumulator carries the local
`confidence` variable as the exact rational `matches / len(patterns)`,
represented by its numerator and denominator; the float comparison
`confidence > 0.3` is the exact comparison `10 * matches > 3 * len`, which
agrees with the source's float arithmetic on every value `m / len` with
`len ∈ {4, 5}` that the table can produce. -/
def detect_loop : List (String × List String) → List Char → Nat × Nat → String × (Nat × Nat)
  | [], _, conf => ("unknown", conf)
  | (intent, pats) :: rest, content, conf =>
      let m := countMatches pats content
      if m > 0 then
        if 10 * m > 3 * pats.length then (intent, (m, pats.length))
        else detect_loop rest content (m, pats.length)
      else detect_loop rest content conf

/-- The lowercased, stripped text `extract_intent` scores
(`message_content.lower().strip()`). -/
def normContent (s : String) : List Char :=
  pyStrip (s.data.map Char.toLower)

/-- The parameters `_extract_parameters` extracts that any handler ever
reads: the category keyword and the priority level. The `email` and `phone`
entries of the source's dictionary are extracted but never read by any
handler nor by `create_appeal`, so they are not carried. -/
structure Params where
  category : Option String
  priority : String
deriving DecidableEq, Repr

def category_vocab : List String := ["account", "billing", "technical", "service", "other"]

def findCategory : List String → List Char → Option String
  | [], _ => none
  | c :: rest, content => if isSubstr c.data content then some c else findCategory rest content

def priorityOf (content : List Char) : String :=
  if ["urgent", "critical", "high"].any (fun w => isSubstr w.data content) then "high"
  else if ["low", "whenever"].any (fun w => isSubstr w.data content) then "low"
  else "normal"

/-- `_extract_parameters(message_content, intent)`: the `intent` argument is
unused by the source's body; matching is over `message_content.lower()`
(not stripped). -/
def extract_parameters (s : String) : Params :=
  let lower := s.data.map Char.toLower
  { category := findCategory category_vocab lower, priority := priorityOf lower }

/-- `MessageHandler.extract_intent(message_content)`: the detected intent and
the extracted parameters. -/
def extract_intent (s : String) : String × Params :=
  ((detect_loop intent_patterns (normContent s) (0, 1)).1, extract_parameters s)

/-- Modelled from the spec's words (§4.1) for comparison with the source's
loop: the first intent in the fixed priority order whose score
`matches / total` exceeds the threshold `3 / 10`; `unknown` when none does. -/
def spec_first_match : List (String × List String) → List Char → String
  | [], _ => "unknown"
  | (intent, pats) :: rest, content =>
      if 10 * countMatches pats content > 3 * pats.length then intent
      else spec_first_match rest content

/-- The decimal digit characters, for rendering `str(n)` and `f"{n:04d}"`. -/
def digitChar : Nat → Char
  | 0 => '0' | 1 => '1' | 2 => '2' | 3 => '3' | 4 => '4'
  | 5 => '5' | 6 => '6' | 7 => '7' | 8 => '8' | 9 => '9'
  | _ => '*'

/-- Big-endian decimal digits of `n`, with explicit fuel so that the kernel
evaluates it; any fuel above `n` yields the digits. -/
def decChars : Nat → Nat → List Char
  | 0, _ => []
  | fuel + 1, n => if n < 10 then [digitChar n] else decChars fuel (n / 10) ++ [digitChar (n % 10)]

/-- Python `str(n)` for a natural number. -/
def natStr (n : Nat) : String := String.mk (decChars (n + 1) n)

/-- Python `f"{n:04d}"`: the decimal digits left-padded with zeros to at
least four characters. -/
def pad4chars (n : Nat) : List Char :=
  List.replicate (4 - (decChars (n + 1) n).length) '0' ++ decChars (n + 1) n

/-- `AppealStatus` of `bot_part2.py`. -/
inductive AppealStatus where
  | PENDING | UNDER_REVIEW | APPROVED | REJECTED | ESCALATED | CLOSED
deriving DecidableEq, Repr

def statusValue : AppealStatus → String
  | .PENDING => "pending"
  | .UNDER_REVIEW => "under_review"
  | .APPROVED => "approved"
  | .REJECTED => "rejected"
  | .ESCALATED => "escalated"
  | .CLOSED => "closed"

/-- A note appended to an appeal: the `{'timestamp': ..., 'content': ...}`
dictionaries of `update_appeal_status` and `escalate_appeal`. -/
structure Note where
  timestamp : String
  content : String
deriving DecidableEq, Repr

/-- The `Appeal` dataclass. -/
structure Appeal where
  appeal_id : String
  user_id : String
  category : String
  subject : String
  description : String
  status : AppealStatus
  priority : String
  attachments : List String
  created_at : String
  updated_at : String
  assigned_to : Option String
  notes : List Note
  resolution : Option String
deriving DecidableEq, Repr

/-- The state of an `AppealManager`: the `appeals` dictionary and the
`user_appeals` dictionary, both insertion-ordered. -/
structure AppealManager where
  appeals : List (String × Appeal)
  user_appeals : List (String × List String)
deriving DecidableEq, Repr

/-- `AppealManager._generate_appeal_id`: `f"APP-{timestamp}-{count:04d}"`
with `count = len(self.appeals) + 1`. -/
def generate_appeal_id (m : AppealManager) (ts : String) : String :=
  "APP-" ++ ts ++ "-" ++ String.mk (pad4chars (m.appeals.length + 1))

/-- `AppealManager.create_appeal`: the created appeal and the new state. -/
def create_appeal (m : AppealManager) (user_id category subject description priority : String)
    (ts now : String) : Appeal × AppealManager :=
  let appeal_id := generate_appeal_id m ts
  let appeal : Appeal :=
    { appeal_id := appeal_id, user_id := user_id, category := category, subject := subject,
      description := description, status := .PENDING, priority := priority, attachments := [],
      created_at := now, updated_at := now, assigned_to := none, notes := [], resolution := none }
  let uids := (lookupA m.user_appeals user_id).getD []
  (appeal,
   { appeals := insertA m.appeals appeal_id appeal,
     user_appeals := insertA m.user_appeals user_id (uids ++ [appeal_id]) })

/-- The optional-note append of `update_appeal_status`: `if notes:` is
Python truthiness, so `None` and the empty string append nothing. -/
def noteList (notes : Option String) (now : String) : List Note :=
  match notes with
  | none => []
  | some s => if s = "" then [] else [{ timestamp := now, content := s }]

/-- `AppealManager.update_appeal_status`: success flag and new state. -/
def update_appeal_status (m : AppealManager) (appeal_id : String) (status : AppealStatus)
    (notes : Option String) (now : String) : Bool × AppealManager :=
  match lookupA m.appeals appeal_id with
  | none => (false, m)
  | some a =>
      let a2 := { a with status := status, updated_at := now,
                         notes := a.notes ++ noteList notes now }
      (true, { m with appeals := insertA m.appeals appeal_id a2 })

/-- `AppealManager.get_appeal`. -/
def get_appeal (m : AppealManager) (appeal_id : String) : Option Appeal :=
  lookupA m.appeals appeal_id

/-- `AppealManager.get_user_appeals`: the sender's appeal ids resolved
against the appeal table, skipping ids no longer present. -/
def get_user_appeals (m : AppealManager) (user_id : String) : List Appeal :=
  ((lookupA m.user_appeals user_id).getD []).filterMap (lookupA m.appeals)

/-- `AppealManager.add_attachment`. -/
def add_attachment (m : AppealManager) (appeal_id attachment_url now : String) :
    Bool × AppealManager :=
  match lookupA m.appeals appeal_id with
  | none => (false, m)
  | some a =>
      let a2 := { a with attachments := a.attachments ++ [attachment_url], updated_at := now }
      (true, { m with appeals := insertA m.appeals appeal_id a2 })

/-- `AppealManager.escalate_appeal`. -/
def escalate_appeal (m : AppealManager) (appeal_id reason now : String) : Bool × AppealManager :=
  match lookupA m.appeals appeal_id with
  | none => (false, m)
  | some a =>
      let a2 := { a with status := .ESCALATED, priority := "high", updated_at := now,
                         notes := a.notes ++ [{ timestamp := now,
                                                content := "Escalated: " ++ reason }] }
      (true, { m with appeals := insertA m.appeals appeal_id a2 })

/-- `AppealManager.close_appeal`. -/
def close_appeal (m : AppealManager) (appeal_id resolution now : String) : Bool × AppealManager :=
  match lookupA m.appeals appeal_id with
  | none => (false, m)
  | some a =>
      let a2 := { a with status := .CLOSED, resolution := some resolution, updated_at := now }
      (true, { m with appeals := insertA m.appeals appeal_id a2 })

/-- One piece of a `str.format` template: literal text or a named
placeholder `\x7bname\x7d`. -/
inductive TPart where
  | lit : String → TPart
  | hole : String → TPart
deriving DecidableEq, Repr

/-- `template.format(**kwargs)`: `none` models the `KeyError` raised when a
placeholder has no binding; otherwise every placeholder is substituted. -/
def pyFormat (bindings : List (String × String)) : List TPart → Option String
  | [] => some ""
  | .lit s :: rest => (pyFormat bindings rest).map (fun r => s ++ r)
  | .hole nm :: rest =>
      match lookupA bindings nm with
      | none => none
      | some v => (pyFormat bindings rest).map (fun r => v ++ r)

/-- The template rendered back as its source text, placeholders kept as
their literal `\x7bname\x7d` spelling. -/
def partsText : List TPart → String
  | [] => ""
  | .lit s :: rest => s ++ partsText rest
  | .hole nm :: rest => "\x7b" ++ nm ++ "\x7d" ++ partsText rest

/-- Total substitution, for stating what rendering yields when every
placeholder is bound (an unbound placeholder becomes empty, a case the
theorems never use). -/
def substAll (bindings : List (String × String)) : List TPart → String
  | [] => ""
  | .lit s :: rest => s ++ substAll bindings rest
  | .hole nm :: rest => (lookupA bindings nm).getD "" ++ substAll bindings rest

/-- `ResponseGenerator.TEMPLATES`, each value split at its placeholders. -/
def TEMPLATES : List (String × List TPart) :=
  [("welcome", [.lit "Selamat datang di Bot Appeal kami! 👋\n\nSaya siap membantu Anda dengan:\n• Membuat appeal baru\n• Cek status appeal\n• Eskalasi kasus\n\nAda yang bisa saya bantu?"]),
   ("help", [.lit "📋 Cara Menggunakan Bot Appeal:\n\n1️⃣ Ketik 'appeal' untuk buat appeal baru\n2️⃣ Ketik 'status' untuk cek status appeal\n3️⃣ Kirim dokumen/foto untuk lampiran\n4️⃣ Ketik 'escalate' jika urgent\n\nBagaimana?"]),
   ("appeal_created", [.lit "✅ Appeal berhasil dibuat!\n\n📌 ID Appeal: ", .hole "appeal_id", .lit "\n📁 Kategori: ", .hole "category", .lit "\n⏰ Status: ", .hole "status", .lit "\n\nTim kami akan meninjau dalam 24 jam."]),
   ("status_check", [.lit "📊 Status Appeal Anda:\n\n📌 ID: ", .hole "appeal_id", .lit "\n📁 Kategori: ", .hole "category", .lit "\n⏰ Status: ", .hole "status", .lit "\n🔄 Diperbarui: ", .hole "updated_at"]),
   ("invalid_input", [.lit "❌ Input tidak valid. Mohon ulangi atau ketik 'help' untuk panduan."]),
   ("error", [.lit "⚠️ Terjadi kesalahan. Silakan coba lagi."])]

def errorTemplate : List TPart := [.lit "⚠️ Terjadi kesalahan. Silakan coba lagi."]

/-- `ResponseGenerator.generate_response(response_type, **kwargs)`: looks the
template up with the `error` fallback, formats it, and on the `KeyError` of a
missing binding returns the template text unformatted. -/
def generate_response (response_type : String) (bindings : List (String × String)) : String :=
  let tpl := (lookupA TEMPLATES response_type).getD errorTemplate
  match pyFormat bindings tpl with
  | some s => s
  | none => partsText tpl

/-- The reply `generate_response('error')` produces. -/
def errorReply : String := "⚠️ Terjadi kesalahan. Silakan coba lagi."

/-- One entry of a sender's `conversation_history`. -/
structure HistEntry where
  timestamp : String
  sender : String
  message : String
deriving DecidableEq, Repr

/-- One sender's entry in `ConversationState.states`. -/
structure ConvState where
  current_step : String
  appeal_draft : List (String × String)
  last_action : String
  conversation_history : List HistEntry
deriving DecidableEq, Repr

/-- The whole `ConversationState.states` dictionary. -/
abbrev StatesMap : Type := List (String × ConvState)

/-- `ConversationState.initialize_state`'s fresh per-sender state. -/
def initState (now : String) : ConvState :=
  { current_step := "menu", appeal_draft := [], last_action := now, conversation_history := [] }

/-- `ConversationState.get_state`: the sender's state plus the store after
the lazy initialization. -/
def get_state (states : StatesMap) (user_id now : String) : ConvState × StatesMap :=
  match lookupA states user_id with
  | some st => (st, states)
  | none => (initState now, insertA states user_id (initState now))

/-- `ConversationState.update_state`: set the step, refresh `last_action`,
merge `data` into the draft. -/
def update_state (states : StatesMap) (user_id step : String)
    (data : List (String × String)) (now : String) : StatesMap :=
  let (st, states1) := get_state states user_id now
  let st2 := { st with current_step := step, last_action := now,
                       appeal_draft := data.foldl (fun d p => insertA d p.1 p.2) st.appeal_draft }
  insertA states1 user_id st2

/-- `ConversationState.add_to_history`. -/
def add_to_history (states : StatesMap) (user_id message sender now : String) : StatesMap :=
  let (st, states1) := get_state states user_id now
  let st2 := { st with conversation_history :=
                 st.conversation_history ++ [{ timestamp := now, sender := sender, message := message }] }
  insertA states1 user_id st2

/-- `ConversationState.get_appeal_draft` (with `get_state`'s lazy
initialization of the store). -/
def get_appeal_draft (states : StatesMap) (user_id now : String) :
    List (String × String) × StatesMap :=
  let (st, states1) := get_state states user_id now
  (st.appeal_draft, states1)

/-- `ConversationState.clear_state`: delete the sender's entry when present. -/
def clear_state (states : StatesMap) (user_id : String) : StatesMap :=
  eraseA states user_id

/-- The `UserProfile` dataclass (the fields the engine touches). -/
structure UserProfile where
  user_id : String
  phone_number : String
  name : String
  email : Option String
  created_at : String
  last_interaction : String
  total_appeals : Nat
  verification_status : Bool
deriving DecidableEq, Repr

/-- Python `user_id[-4:]`: the last four characters (all of them when the
string is shorter). -/
def lastFour (s : String) : String :=
  String.mk (s.data.drop (s.data.length - 4))

/-- The profile `BotEngine._initialize_user` builds. -/
def newProfile (user_id now : String) : UserProfile :=
  { user_id := user_id, phone_number := user_id, name := "User_" ++ lastFour user_id,
    email := none, created_at := now, last_interaction := now,
    total_appeals := 0, verification_status := false }

/-- A raw WhatsApp message as `parse_message` reads it: each key the engine
looks up, absent when the dictionary lacks it. Media messages carry the same
`from`/`body` keys and are classified through the same text path, so the
`media` key is not modelled. -/
structure RawMessage where
  id : Option String
  from_number : Option String
  timestamp : Option String
  body : Option String
deriving DecidableEq, Repr

/-- The dictionary `MessageHandler.parse_message` returns (it cannot raise on
a dictionary input, so the `None` branch of the source is unreachable). -/
structure ParsedMessage where
  message_id : Option String
  from_number : Option String
  timestamp : String
  type : String
  content : String
  processed : Bool
deriving DecidableEq, Repr

def parse_message (raw : RawMessage) (now : String) : ParsedMessage :=
  { message_id := raw.id, from_number := raw.from_number,
    timestamp := raw.timestamp.getD now, type := "text",
    content := raw.body.getD "", processed := false }

/-- The mutable state of `BotEngine`. -/
structure BotEngine where
  appeal_manager : AppealManager
  conversation_state : StatesMap
  user_profiles : List (String × UserProfile)
deriving DecidableEq, Repr

def initialEngine : BotEngine :=
  { appeal_manager := { appeals := [], user_appeals := [] },
    conversation_state := [], user_profiles := [] }

/-- `BotEngine._initialize_user`. -/
def initialize_user (e : BotEngine) (user_id now : String) : BotEngine :=
  { e with user_profiles := insertA e.user_profiles user_id (newProfile user_id now),
           conversation_state := insertA e.conversation_state user_id (initState now) }

/-- The sender's conversation history as stored (empty when the sender has
no entry). -/
def histOf (e : BotEngine) (user_id : String) : List HistEntry :=
  match lookupA e.conversation_state user_id with
  | some st => st.conversation_history
  | none => []

/-- `BotEngine._handle_create_appeal`. -/
def handle_create_appeal (e : BotEngine) (user_id message : String) (params : Params)
    (now ts : String) : String × BotEngine :=
  let (draft, states1) := get_appeal_draft e.conversation_state user_id now
  let e1 := { e with conversation_state := states1 }
  if (lookupA draft "category").isNone then
    ("📁 Kategori apa? (account/billing/technical/service/other)", e1)
  else if (lookupA draft "subject").isNone then
    let states2 := update_state e1.conversation_state user_id "collecting_subject"
      [("category", params.category.getD "other")] now
    ("📝 Judul/subject appeal?", { e1 with conversation_state := states2 })
  else if (lookupA draft "description").isNone then
    let states2 := update_state e1.conversation_state user_id "collecting_description"
      [("subject", message)] now
    ("📄 Jelaskan detail masalah Anda:", { e1 with conversation_state := states2 })
  else
    let draft2 := insertA (match params.category with
                           | some c => insertA draft "category" c
                           | none => draft) "priority" params.priority
    let st := (get_state e1.conversation_state user_id now).1
    let states2 := insertA e1.conversation_state user_id { st with appeal_draft := draft2 }
    let (appeal, m2) := create_appeal e1.appeal_manager user_id
      ((lookupA draft2 "category").getD "other")
      ((lookupA draft2 "subject").getD message)
      ((lookupA draft2 "description").getD message)
      ((lookupA draft2 "priority").getD "normal") ts now
    let e2 := { e1 with appeal_manager := m2,
                        conversation_state := clear_state states2 user_id,
                        user_profiles :=
                          match lookupA e1.user_profiles user_id with
                          | some p => insertA e1.user_profiles user_id
                              { p with total_appeals := p.total_appeals + 1 }
                          | none => e1.user_profiles }
    (generate_response "appeal_created"
       [("appeal_id", appeal.appeal_id), ("category", appeal.category),
        ("status", statusValue appeal.status)], e2)

/-- The `f"{i}. {appeal.appeal_id} - {appeal.status.value}\n"` loop of
`_handle_check_status`, enumerating from `i`. -/
def listLines (i : Nat) : List Appeal → String
  | [] => ""
  | a :: rest =>
      natStr i ++ ". " ++ a.appeal_id ++ " - " ++ statusValue a.status ++ "\n"
        ++ listLines (i + 1) rest

/-- `BotEngine._handle_check_status` (reads only; the engine is returned
unchanged on every branch). -/
def handle_check_status (e : BotEngine) (user_id : String) : String × BotEngine :=
  match get_user_appeals e.appeal_manager user_id with
  | [] => ("📭 Anda belum membuat appeal apapun.", e)
  | [a] =>
      (generate_response "status_check"
         [("appeal_id", a.appeal_id), ("category", a.category),
          ("status", statusValue a.status), ("updated_at", a.updated_at.take 10)], e)
  | appeals =>
      ("📊 Daftar Appeal Anda:\n\n" ++ listLines 1 appeals
         ++ "\nReply dengan nomor untuk detail", e)

/-- `BotEngine._handle_provide_info`. -/
def handle_provide_info (e : BotEngine) (user_id message now : String) : String × BotEngine :=
  match (get_user_appeals e.appeal_manager user_id).getLast? with
  | none => ("❌ Belum ada appeal yang aktif.", e)
  | some latest =>
      let m2 := (add_attachment e.appeal_manager latest.appeal_id message now).2
      ("✅ Informasi/lampiran ditambahkan ke appeal " ++ latest.appeal_id,
       { e with appeal_manager := m2 })

/-- `BotEngine._handle_escalate` (`message or "User requested escalation"`
is Python truthiness on the string). -/
def handle_escalate (e : BotEngine) (user_id message now : String) : String × BotEngine :=
  match (get_user_appeals e.appeal_manager user_id).getLast? with
  | none => ("❌ Belum ada appeal untuk dieskalasi.", e)
  | some latest =>
      let reason := if message = "" then "User requested escalation" else message
      let m2 := (escalate_appeal e.appeal_manager latest.appeal_id reason now).2
      ("⚠️ Appeal " ++ latest.appeal_id ++ " telah dieskalasi ke tim senior.",
       { e with appeal_manager := m2 })

/-- `BotEngine._handle_close_appeal`. -/
def handle_close_appeal (e : BotEngine) (user_id message now : String) : String × BotEngine :=
  match (get_user_appeals e.appeal_manager user_id).getLast? with
  | none => ("❌ Belum ada appeal untuk ditutup.", e)
  | some latest =>
      let resolution := if message = "" then "Closed by user" else message
      let m2 := (close_appeal e.appeal_manager latest.appeal_id resolution now).2
      ("✅ Appeal " ++ latest.appeal_id ++ " telah ditutup.", { e with appeal_manager := m2 })

/-- `BotEngine._handle_get_help`. -/
def handle_get_help (e : BotEngine) : String × BotEngine :=
  (generate_response "help" [], e)

/-- `BotEngine._handle_cancel`. -/
def handle_cancel (e : BotEngine) (user_id : String) : String × BotEngine :=
  ("❌ Dibatalkan. Ketik apapun untuk mulai lagi.",
   { e with conversation_state := clear_state e.conversation_state user_id })

/-- `BotEngine._route_intent`. The `unknown` default routes to
`_handle_unknown`, which evaluates `ResponseGenerator.TEMPLATES['menu']`; no
`menu` key exists, so that handler raises `KeyError` before producing a
reply: `none` models that exception escaping the handler. -/
def route_intent (e : BotEngine) (user_id intent message : String) (params : Params)
    (now ts : String) : Option (String × BotEngine) :=
  if intent = "create_appeal" then some (handle_create_appeal e user_id message params now ts)
  else if intent = "check_status" then some (handle_check_status e user_id)
  else if intent = "provide_info" then some (handle_provide_info e user_id message now)
  else if intent = "escalate" then some (handle_escalate e user_id message now)
  else if intent = "close_appeal" then some (handle_close_appeal e user_id message now)
  else if intent = "get_help" then some (handle_get_help e)
  else if intent = "cancel" then some (handle_cancel e user_id)
  else none

/-- The mutations `process_message` performs before routing: profile
initialization for a new sender, the `last_interaction` refresh, the
`get_state` lazy initialization, and the inbound history append. -/
def preRoute (e : BotEngine) (user_id content now : String) : BotEngine :=
  let e1 := if (lookupA e.user_profiles user_id).isSome then e
            else initialize_user e user_id now
  let e2 := { e1 with user_profiles :=
                match lookupA e1.user_profiles user_id with
                | some p => insertA e1.user_profiles user_id { p with last_interaction := now }
                | none => e1.user_profiles }
  let e3 := { e2 with conversation_state := (get_state e2.conversation_state user_id now).2 }
  { e3 with conversation_state := add_to_history e3.conversation_state user_id content "user" now }

/-- `BotEngine.process_message`: the reply and the engine state after the
message. A missing sender id makes `_initialize_user` evaluate `None[-4:]`,
whose `TypeError` is caught by the top-level handler before any mutation, so
the engine is returned unchanged with the error reply; the `KeyError` of the
unknown-intent handler is caught the same way after the pre-routing
mutations, so those persist and no outbound history entry is written. -/
def process_message (e : BotEngine) (raw : RawMessage) (now ts : String) : String × BotEngine :=
  let parsed := parse_message raw now
  match parsed.from_number with
  | none => (generate_response "error" [], e)
  | some user_id =>
      let content := parsed.content
      let intent := (extract_intent content).1
      let params := (extract_intent content).2
      let e4 := preRoute e user_id content now
      match route_intent e4 user_id intent content params now ts with
      | none => (generate_response "error" [], e4)
      | some r =>
          (r.1,
           { r.2 with conversation_state :=
               add_to_history r.2.conversation_state user_id r.1 "bot" now })

/-- A run of the engine over a message sequence (each message with its
clock readings). -/
def processAll (e : BotEngine) : List (RawMessage × String × String) → BotEngine
  | [] => e
  | (raw, now, ts) :: rest => processAll (process_message e raw now ts).2 rest

/-- No sender's appeal draft contains the `category` key: the invariant
behind claim C3, decidable so runs can discharge it by evaluation. -/
def noCategoryDrafts (states : StatesMap) : Bool :=
  states.all (fun p => (lookupA p.2.appeal_draft "category").isNone)

/-- The id of the appeal `appeals[-1]` that the info/escalate/close handlers
operate on, when the sender has one. -/
def latestIdOf (m : AppealManager) (user_id : String) : Option String :=
  ((get_user_appeals m user_id).getLast?).map (fun a => a.appeal_id)

theorem lookupA_insertA_self {α : Type} (l : List (String × α)) (k : String) (v : α) :
    lookupA (insertA l k v) k = some v := by
  induction l with
  | nil => simp [insertA, lookupA]
  | cons h t ih =>
      by_cases hk : h.1 = k
      · simp [insertA, hk, lookupA]
      · simp [insertA, hk, lookupA, ih]

theorem lookupA_insertA_ne {α : Type} (l : List (String × α)) (k k' : String) (v : α)
    (h : k ≠ k') : lookupA (insertA l k v) k' = lookupA l k' := by
  induction l with
  | nil => simp [insertA, lookupA, h]
  | cons hd t ih =>
      by_cases hk : hd.1 = k
      · simp [insertA, hk, lookupA, h]
      · simp [insertA, hk, lookupA, ih]

theorem mapFst_insertA {α : Type} (l : List (String × α)) (k : String) (v : α)
    (h : (lookupA l k).isSome) : (insertA l k v).map Prod.fst = l.map Prod.fst := by
  induction l with
  | nil => simp [lookupA] at h
  | cons hd t ih =>
      by_cases hk : hd.1 = k
      · simp [insertA, hk]
      · simp [lookupA, hk] at h
        simp [insertA, hk, ih h]

theorem lookupA_mem {α : Type} {l : List (String × α)} {k : String} {v : α}
    (h : lookupA l k = some v) : (k, v) ∈ l := by
  induction l with
  | nil => simp [lookupA] at h
  | cons hd t ih =>
      obtain ⟨a, b⟩ := hd
      by_cases hk : a = k
      · subst hk
        simp [lookupA] at h
        subst h
        exact List.mem_cons_self _ _
      · simp [lookupA, hk] at h
        exact List.mem_cons_of_mem _ (ih h)

theorem mem_insertA {α : Type} {l : List (String × α)} {k : String} {v : α}
    {p : String × α} (h : p ∈ insertA l k v) : p ∈ l ∨ p = (k, v) := by
  induction l with
  | nil =>
      simp [insertA] at h
      exact Or.inr h
  | cons hd t ih =>
      by_cases h2 : hd.1 = k
      · simp [insertA, h2] at h
        rcases h with h | h
        · exact Or.inr h
        · exact Or.inl (List.mem_cons_of_mem _ h)
      · simp [insertA, h2] at h
        rcases h with h | h
        · exact Or.inl (by simp [h])
        · rcases ih h with h3 | h3
          · exact Or.inl (List.mem_cons_of_mem _ h3)
          · exact Or.inr h3

theorem lookupA_eraseA_self {α : Type} (l : List (String × α)) (k : String)
    (h : (l.map Prod.fst).Nodup) : lookupA (eraseA l k) k = none := by
  induction l with
  | nil => simp [eraseA, lookupA]
  | cons hd t ih =>
      simp only [List.map_cons, List.nodup_cons] at h
      by_cases hk : hd.1 = k
      · subst hk
        cases hlook : lookupA t hd.1 with
        | none => simp [eraseA, hlook]
        | some v => exact absurd (List.mem_map_of_mem Prod.fst (lookupA_mem hlook)) h.1
      · simp [eraseA, hk, lookupA, ih h.2]

theorem keysNodup_insertA {α : Type} (l : List (String × α)) (k : String) (v : α)
    (h : (l.map Prod.fst).Nodup) : ((insertA l k v).map Prod.fst).Nodup := by
  induction l with
  | nil => simp [insertA]
  | cons hd t ih =>
      simp only [List.map_cons, List.nodup_cons] at h
      by_cases hk : hd.1 = k
      · subst hk
        simpa [insertA] using h
      · have hkey : hd.1 ∉ (insertA t k v).map Prod.fst := by
          intro hmem
          rcases List.mem_map.1 hmem with ⟨p, hp, hfst⟩
          rcases mem_insertA hp with hp' | hp'
          · exact h.1 (hfst ▸ List.mem_map_of_mem Prod.fst hp')
          · apply hk
            rw [hp'] at hfst
            simpa using hfst.symm
        simp only [insertA, if_neg hk, List.map_cons, List.nodup_cons]
        exact ⟨hkey, ih h.2⟩

/-- A concrete already-closed appeal, for counterexamples and witnesses. -/
def sampleAppeal : Appeal :=
  { appeal_id := "APP-20260101000000-0001", user_id := "A", category := "technical",
    subject := "S", description := "D", status := .CLOSED, priority := "normal",
    attachments := [], created_at := "2026-01-01T00:00:00", updated_at := "2026-01-01T00:00:00",
    assigned_to := none, notes := [], resolution := some "done" }

/-- A manager holding `sampleAppeal`. -/
def sampleManager : AppealManager :=
  { appeals := [("APP-20260101000000-0001", sampleAppeal)],
    user_appeals := [("A", ["APP-20260101000000-0001"])] }

/-- C2 counterexample: on an appeal that is already `CLOSED`, `close_appeal`
does not fail with an invalid-transition result — it returns success and
overwrites both `resolution` and `updated_at`, contradicting the claim that
`CLOSED` is terminal and that failures leave the appeal unchanged. -/
theorem C2_counterexample :
    (close_appeal sampleManager "APP-20260101000000-0001" "second" "2026-01-02T00:00:00").1
      = true ∧
    (lookupA (close_appeal sampleManager "APP-20260101000000-0001" "second"
        "2026-01-02T00:00:00").2.appeals "APP-20260101000000-0001").map Appeal.resolution
      = some (some "second") ∧
    (lookupA (close_appeal sampleManager "APP-20260101000000-0001" "second"
        "2026-01-02T00:00:00").2.appeals "APP-20260101000000-0001").map Appeal.updated_at
      ≠ some "2026-01-01T00:00:00" := by
  decide

/-- C2 (amended): the code enforces no status-transition rules at all.
Every mutating lifecycle operation succeeds on any existing appeal whatever
its current status — in particular `close_appeal` on an appeal already
`CLOSED` succeeds, overwriting `resolution` and `updated_at`, and
`update_appeal_status` applies any requested status. Only an unknown appeal
id fails. -/
theorem C2_amended (m : AppealManager) (aid : String) (a : Appeal) (st : AppealStatus)
    (notes : Option String) (s now : String) (h : lookupA m.appeals aid = some a) :
    (update_appeal_status m aid st notes now).1 = true ∧
    lookupA (update_appeal_status m aid st notes now).2.appeals aid =
      some { a with status := st, updated_at := now,
                    notes := a.notes ++ noteList notes now } ∧
    (close_appeal m aid s now).1 = true ∧
    lookupA (close_appeal m aid s now).2.appeals aid =
      some { a with status := .CLOSED, resolution := some s, updated_at := now } ∧
    (escalate_appeal m aid s now).1 = true ∧
    (add_attachment m aid s now).1 = true := by
  simp [update_appeal_status, close_appeal, escalate_appeal, add_attachment, h,
        lookupA_insertA_self]

/-- C2 witness: the amended theorem applied to the closed `sampleAppeal`
with the (spec-forbidden) transition `CLOSED → PENDING`. -/
theorem C2_witness :
    (update_appeal_status sampleManager "APP-20260101000000-0001" AppealStatus.PENDING
        none "T2").1 = true ∧
    lookupA (update_appeal_status sampleManager "APP-20260101000000-0001" AppealStatus.PENDING
        none "T2").2.appeals "APP-20260101000000-0001" =
      some { sampleAppeal with status := AppealStatus.PENDING, updated_at := "T2",
                               notes := sampleAppeal.notes ++ noteList none "T2" } ∧
    (close_appeal sampleManager "APP-20260101000000-0001" "r" "T2").1 = true ∧
    lookupA (close_appeal sampleManager "APP-20260101000000-0001" "r"
        "T2").2.appeals "APP-20260101000000-0001" =
      some { sampleAppeal with status := AppealStatus.CLOSED, resolution := some "r",
                               updated_at := "T2" } ∧
    (escalate_appeal sampleManager "APP-20260101000000-0001" "r" "T2").1 = true ∧
    (add_attachment sampleManager "APP-20260101000000-0001" "r" "T2").1 = true :=
  C2_amended sampleManager "APP-20260101000000-0001" sampleAppeal AppealStatus.PENDING
    none "r" "T2" (by decide)

/-- C8: `escalate_appeal` on any existing appeal succeeds, sets the status to
`ESCALATED`, forces `priority = "high"` whatever the prior priority, bumps
`updated_at` to the call's clock reading, and appends exactly one note whose
content is `"Escalated: "` followed by the reason. -/
theorem C8_escalate (m : AppealManager) (aid reason now : String) (a : Appeal)
    (h : lookupA m.appeals aid = some a) :
    (escalate_appeal m aid reason now).1 = true ∧
    lookupA (escalate_appeal m aid reason now).2.appeals aid =
      some { a with status := .ESCALATED, priority := "high", updated_at := now,
                    notes := a.notes ++
                      [{ timestamp := now, content := "Escalated: " ++ reason }] } := by
  simp [escalate_appeal, h, lookupA_insertA_self]

/-- C8 witness: escalating the concrete `sampleAppeal` (whose priority is
`"normal"`). -/
theorem C8_witness :
    (escalate_appeal sampleManager "APP-20260101000000-0001" "too slow" "T3").1 = true ∧
    lookupA (escalate_appeal sampleManager "APP-20260101000000-0001" "too slow"
        "T3").2.appeals "APP-20260101000000-0001" =
      some { sampleAppeal with status := AppealStatus.ESCALATED, priority := "high",
                               updated_at := "T3",
                               notes := sampleAppeal.notes ++
                                 [{ timestamp := "T3",
                                    content := "Escalated: " ++ "too slow" }] } :=
  C8_escalate sampleManager "APP-20260101000000-0001" "too slow" "T3" sampleAppeal (by decide)

/-- C9: on an appeal id absent from the table, every mutating lifecycle
operation returns the failure flag with the manager unchanged — so repeated
calls with the same unknown id fail identically, and no existing appeal is
touched. -/
theorem C9_unknown_id (m : AppealManager) (aid : String) (st : AppealStatus)
    (notes : Option String) (s now : String) (h : lookupA m.appeals aid = none) :
    update_appeal_status m aid st notes now = (false, m) ∧
    escalate_appeal m aid s now = (false, m) ∧
    close_appeal m aid s now = (false, m) ∧
    add_attachment m aid s now = (false, m) ∧
    update_appeal_status (update_appeal_status m aid st notes now).2 aid st notes now
      = (false, m) := by
  simp [update_appeal_status, escalate_appeal, close_appeal, add_attachment, h]

/-- C9 witness: the unknown id `"APP-NOPE"` against the concrete manager. -/
theorem C9_witness :
    update_appeal_status sampleManager "APP-NOPE" AppealStatus.CLOSED none "T4"
      = (false, sampleManager) ∧
    escalate_appeal sampleManager "APP-NOPE" "r" "T4" = (false, sampleManager) ∧
    close_appeal sampleManager "APP-NOPE" "r" "T4" = (false, sampleManager) ∧
    add_attachment sampleManager "APP-NOPE" "r" "T4" = (false, sampleManager) ∧
    update_appeal_status (update_appeal_status sampleManager "APP-NOPE" AppealStatus.CLOSED
        none "T4").2 "APP-NOPE" AppealStatus.CLOSED none "T4" = (false, sampleManager) :=
  C9_unknown_id sampleManager "APP-NOPE" AppealStatus.CLOSED none "r" "T4" (by decide)

/-- Whether every placeholder of a template has a binding, as the decidable
check the rendering lemmas case on. -/
def allBound (b : List (String × String)) (tpl : List TPart) : Bool :=
  tpl.all (fun part => match part with
                       | .hole nm => (lookupA b nm).isSome
                       | .lit _ => true)

/-- Whether some placeholder of a template lacks a binding. -/
def someUnbound (b : List (String × String)) (tpl : List TPart) : Bool :=
  tpl.any (fun part => match part with
                       | .hole nm => (lookupA b nm).isNone
                       | .lit _ => false)

theorem pyFormat_all_bound (b : List (String × String)) :
    ∀ tpl : List TPart, allBound b tpl = true → pyFormat b tpl = some (substAll b tpl) := by
  intro tpl
  induction tpl with
  | nil => intro h; rfl
  | cons part rest ih =>
      intro h
      unfold allBound at h
      rw [List.all_cons, Bool.and_eq_true] at h
      obtain ⟨h1, h2⟩ := h
      cases part with
      | lit s =>
          show (pyFormat b rest).map (fun r => s ++ r) = some (s ++ substAll b rest)
          rw [ih h2]
          rfl
      | hole nm =>
          have h1' : (lookupA b nm).isSome = true := h1
          rcases Option.isSome_iff_exists.mp h1' with ⟨v, hv⟩
          show (match lookupA b nm with
                | none => none
                | some v => (pyFormat b rest).map (fun r => v ++ r))
            = some ((lookupA b nm).getD "" ++ substAll b rest)
          rw [hv, ih h2]
          rfl

theorem pyFormat_unbound (b : List (String × String)) :
    ∀ tpl : List TPart, someUnbound b tpl = true → pyFormat b tpl = none := by
  intro tpl
  induction tpl with
  | nil => intro h; simp [someUnbound] at h
  | cons part rest ih =>
      intro h
      unfold someUnbound at h
      rw [List.any_cons, Bool.or_eq_true] at h
      cases part with
      | lit s =>
          have h2 : someUnbound b rest = true := by
            rcases h with h | h
            · exact absurd h (by simp)
            · exact h
          show (pyFormat b rest).map (fun r => s ++ r) = none
          rw [ih h2]
          rfl
      | hole nm =>
          show (match lookupA b nm with
                | none => none
                | some v => (pyFormat b rest).map (fun r => v ++ r)) = none
          rcases h with h | h
          · have h1' : (lookupA b nm).isNone = true := h
            rw [Option.isNone_iff_eq_none.mp h1']
          · cases hl : lookupA b nm with
            | none => rfl
            | some v =>
                rw [ih h]
                rfl

/-- C7 counterexample: rendering `appeal_created` with only `appeal_id`
bound returns the template text with every placeholder intact — including
the bound `appeal_id` — not, as the claim states, the text with `appeal_id`
substituted and only the unbound placeholders left intact. -/
theorem C7_counterexample :
    generate_response "appeal_created" [("appeal_id", "APP-X")] =
      "✅ Appeal berhasil dibuat!\n\n📌 ID Appeal: \x7bappeal_id\x7d\n📁 Kategori: \x7bcategory\x7d\n⏰ Status: \x7bstatus\x7d\n\nTim kami akan meninjau dalam 24 jam." ∧
    generate_response "appeal_created" [("appeal_id", "APP-X")] ≠
      "✅ Appeal berhasil dibuat!\n\n📌 ID Appeal: APP-X\n📁 Kategori: \x7bcategory\x7d\n⏰ Status: \x7bstatus\x7d\n\nTim kami akan meninjau dalam 24 jam." := by
  decide

/-- C7 (amended): `generate_response` is total (never throws). An unknown
template name renders exactly as the generic `error` template does; when
every placeholder of the selected template is bound the result is the full
substitution; but when any placeholder lacks a binding the `KeyError` of
`str.format` is caught and the whole template text is returned unmodified —
no placeholder at all is substituted, not even the bound ones. -/
theorem C7_amended (name : String) (b : List (String × String)) :
    (lookupA TEMPLATES name = none →
       generate_response name b = generate_response "error" b) ∧
    (allBound b ((lookupA TEMPLATES name).getD errorTemplate) = true →
       generate_response name b = substAll b ((lookupA TEMPLATES name).getD errorTemplate)) ∧
    (someUnbound b ((lookupA TEMPLATES name).getD errorTemplate) = true →
       generate_response name b = partsText ((lookupA TEMPLATES name).getD errorTemplate)) := by
  refine ⟨?_, ?_, ?_⟩
  · intro h
    have he : lookupA TEMPLATES "error" = some errorTemplate := by decide
    simp only [generate_response, h, he, Option.getD_none, Option.getD_some]
  · intro h
    simp only [generate_response]
    rw [pyFormat_all_bound b _ h]
  · intro h
    simp only [generate_response]
    rw [pyFormat_unbound b _ h]

/-- C7 witness: the amended theorem at the unknown template name `"menu"`
with a binding that the `status_check` template would use. -/
theorem C7_witness :
    (lookupA TEMPLATES "menu" = none →
       generate_response "menu" [("appeal_id", "APP-X")]
         = generate_response "error" [("appeal_id", "APP-X")]) ∧
    (allBound [("appeal_id", "APP-X")]
        ((lookupA TEMPLATES "menu").getD errorTemplate) = true →
       generate_response "menu" [("appeal_id", "APP-X")]
         = substAll [("appeal_id", "APP-X")] ((lookupA TEMPLATES "menu").getD errorTemplate)) ∧
    (someUnbound [("appeal_id", "APP-X")]
        ((lookupA TEMPLATES "menu").getD errorTemplate) = true →
       generate_response "menu" [("appeal_id", "APP-X")]
         = partsText ((lookupA TEMPLATES "menu").getD errorTemplate)) :=
  C7_amended "menu" [("appeal_id", "APP-X")]

/-- The scoring loop returns exactly the spec's first-match selection,
whatever confidence accumulator it carries. -/
theorem detect_loop_eq_spec :
    ∀ (pats : List (String × List String)) (content : List Char) (conf : Nat × Nat),
      (detect_loop pats content conf).1 = spec_first_match pats content := by
  intro pats
  induction pats with
  | nil => intro content conf; rfl
  | cons hd rest ih =>
      intro content conf
      obtain ⟨intent, ps⟩ := hd
      show (if countMatches ps content > 0 then
              if 10 * countMatches ps content > 3 * ps.length
              then (intent, (countMatches ps content, ps.length))
              else detect_loop rest content (countMatches ps content, ps.length)
            else detect_loop rest content conf).1
        = if 10 * countMatches ps content > 3 * ps.length then intent
          else spec_first_match rest content
      by_cases hm : countMatches ps content > 0
      · by_cases ht : 10 * countMatches ps content > 3 * ps.length
        · simp [hm, ht]
        · simp [hm, ht, ih]
      · have hz : countMatches ps content = 0 := by omega
        have ht : ¬ 10 * countMatches ps content > 3 * ps.length := by omega
        simp [hm, ht, ih]

/-- C4: intent selection is first-match-wins over the fixed priority order.
The intent `extract_intent` returns equals, for every input text, the
spec-side selection `spec_first_match`: the first intent in priority order
whose score (distinct case-insensitive trigger matches over total triggers)
exceeds 3/10, and `"unknown"` when no intent clears the threshold — even
when a later intent would score higher. The source's confidence variable is
local to the loop and not part of the returned value. -/
theorem C4_first_match_wins (s : String) :
    (extract_intent s).1 = spec_first_match intent_patterns (normContent s) :=
  detect_loop_eq_spec intent_patterns (normContent s) (0, 1)

/-- The four messages of the spec's happy-path scenario, sent by `"A"`. -/
def scenarioMsgs : List (RawMessage × String × String) :=
  [(⟨some "m1", some "A", none, some "I want to report a technical issue"⟩, "T1", "S1"),
   (⟨some "m2", some "A", none, some "technical"⟩, "T2", "S2"),
   (⟨some "m3", some "A", none, some "Login broken"⟩, "T3", "S3"),
   (⟨some "m4", some "A", none, some "Cannot log in since yesterday"⟩, "T4", "S4")]

/-- C1: the spec's happy-path scenario fails on the code. Each of the four
messages scores below the 0.3 intent threshold (a single trigger at most),
classifies as `unknown`, and the unknown-intent handler's reference to the
missing `menu` template aborts it, so every reply — the first included —
is the generic error reply, never the category/subject/description prompts
or the `appeal_created` message, and after all four messages no appeal
exists at all. -/
theorem C1_scenario_fails :
    ((scenarioMsgs.map (fun p => (extract_intent ((p.1.body).getD "")).1))
        = ["unknown", "unknown", "unknown", "unknown"]) ∧
    (process_message initialEngine (⟨some "m1", some "A", none,
        some "I want to report a technical issue"⟩ : RawMessage) "T1" "S1").1 = errorReply ∧
    errorReply ≠ "📁 Kategori apa? (account/billing/technical/service/other)" ∧
    (processAll initialEngine scenarioMsgs).appeal_manager.appeals = [] ∧
    (lookupA (processAll initialEngine scenarioMsgs).appeal_manager.user_appeals "A") = none := by
  decide

/-- A sender's history read directly from a states map. -/
def histS (states : StatesMap) (user_id : String) : List HistEntry :=
  match lookupA states user_id with
  | some st => st.conversation_history
  | none => []

theorem histOf_eq_histS (e : BotEngine) (uid : String) :
    histOf e uid = histS e.conversation_state uid := rfl

theorem histS_add (states : StatesMap) (uid msg sender now : String) :
    histS (add_to_history states uid msg sender now) uid
      = histS states uid ++ [{ timestamp := now, sender := sender, message := msg }] := by
  unfold add_to_history get_state histS
  cases h : lookupA states uid with
  | some st => simp [h, lookupA_insertA_self]
  | none => simp [h, lookupA_insertA_self, initState]

theorem histS_get_state (states : StatesMap) (uid now : String) :
    histS ((get_state states uid now).2) uid = histS states uid := by
  unfold get_state histS
  cases h : lookupA states uid with
  | some st => simp [h]
  | none => simp [h, lookupA_insertA_self, initState]

theorem mem_eraseA {α : Type} {l : List (String × α)} {k : String} {p : String × α}
    (h : p ∈ eraseA l k) : p ∈ l := by
  induction l with
  | nil => simp [eraseA] at h
  | cons hd t ih =>
      by_cases hk : hd.1 = k
      · simp only [eraseA, if_pos hk] at h
        exact List.mem_cons_of_mem _ h
      · simp only [eraseA, if_neg hk] at h
        rcases List.mem_cons.mp h with h | h
        · exact h ▸ List.mem_cons_self _ _
        · exact List.mem_cons_of_mem _ (ih h)

theorem noCat_lookup {states : StatesMap} {uid : String} {st : ConvState}
    (hinv : noCategoryDrafts states = true) (h : lookupA states uid = some st) :
    lookupA st.appeal_draft "category" = none := by
  have hall := List.all_eq_true.mp hinv _ (lookupA_mem h)
  exact Option.isNone_iff_eq_none.mp hall

theorem noCat_insertA {states : StatesMap} {uid : String} {st : ConvState}
    (hinv : noCategoryDrafts states = true)
    (hst : lookupA st.appeal_draft "category" = none) :
    noCategoryDrafts (insertA states uid st) = true := by
  apply List.all_eq_true.mpr
  intro p hp
  rcases mem_insertA hp with hp' | hp'
  · exact List.all_eq_true.mp hinv _ hp'
  · subst hp'
    simp [hst]

theorem noCat_eraseA {states : StatesMap} {uid : String}
    (hinv : noCategoryDrafts states = true) :
    noCategoryDrafts (eraseA states uid) = true := by
  apply List.all_eq_true.mpr
  intro p hp
  exact List.all_eq_true.mp hinv _ (mem_eraseA hp)

theorem noCat_get_state {states : StatesMap} (uid now : String)
    (hinv : noCategoryDrafts states = true) :
    noCategoryDrafts ((get_state states uid now).2) = true ∧
    lookupA ((get_state states uid now).1).appeal_draft "category" = none := by
  unfold get_state
  cases h : lookupA states uid with
  | some st => exact ⟨hinv, noCat_lookup hinv h⟩
  | none =>
      refine ⟨noCat_insertA hinv ?_, ?_⟩ <;> simp [initState, lookupA]

theorem noCat_add_to_history {states : StatesMap} (uid msg sender now : String)
    (hinv : noCategoryDrafts states = true) :
    noCategoryDrafts (add_to_history states uid msg sender now) = true := by
  unfold add_to_history
  exact noCat_insertA (noCat_get_state uid now hinv).1 (noCat_get_state uid now hinv).2

theorem noCat_preRoute (e : BotEngine) (uid content now : String)
    (hinv : noCategoryDrafts e.conversation_state = true) :
    noCategoryDrafts (preRoute e uid content now).conversation_state = true := by
  unfold preRoute initialize_user
  by_cases hp : (lookupA e.user_profiles uid).isSome
  · simp only [hp, if_true]
    exact noCat_add_to_history _ _ _ _ (noCat_get_state _ _ hinv).1
  · simp only [hp, if_false]
    apply noCat_add_to_history
    apply (noCat_get_state _ _ _).1
    exact noCat_insertA hinv (by simp [initState, lookupA])

theorem check_status_engine (e : BotEngine) (uid : String) :
    (handle_check_status e uid).2 = e := by
  unfold handle_check_status
  split <;> rfl

theorem provide_info_conv (e : BotEngine) (uid msg now : String) :
    (handle_provide_info e uid msg now).2.conversation_state = e.conversation_state := by
  unfold handle_provide_info
  split <;> rfl

theorem escalate_conv (e : BotEngine) (uid msg now : String) :
    (handle_escalate e uid msg now).2.conversation_state = e.conversation_state := by
  unfold handle_escalate
  split <;> rfl

theorem close_conv (e : BotEngine) (uid msg now : String) :
    (handle_close_appeal e uid msg now).2.conversation_state = e.conversation_state := by
  unfold handle_close_appeal
  split <;> rfl

theorem provide_info_mgr (e : BotEngine) (uid msg now : String) :
    (handle_provide_info e uid msg now).2.user_profiles = e.user_profiles := by
  unfold handle_provide_info
  split <;> rfl

/-- Under the no-category invariant, `_handle_create_appeal` always takes
its first branch: it replies with the category prompt, stores nothing in the
draft, and touches neither the appeal manager nor the profiles. -/
theorem create_appeal_under_inv (e : BotEngine) (uid msg : String) (params : Params)
    (now ts : String) (hinv : noCategoryDrafts e.conversation_state = true) :
    handle_create_appeal e uid msg params now ts
      = ("📁 Kategori apa? (account/billing/technical/service/other)",
         { e with conversation_state := (get_state e.conversation_state uid now).2 }) := by
  unfold handle_create_appeal get_appeal_draft
  have hcat := (noCat_get_state uid now hinv).2
  simp [hcat]

theorem route_inv (e : BotEngine) (uid intent msg : String) (params : Params) (now ts : String)
    (hinv : noCategoryDrafts e.conversation_state = true) :
    ∀ out, route_intent e uid intent msg params now ts = some out →
      noCategoryDrafts out.2.conversation_state = true := by
  intro out h
  unfold route_intent at h
  split_ifs at h
  · rw [create_appeal_under_inv e uid msg params now ts hinv] at h
    obtain rfl := Option.some.inj h
    exact (noCat_get_state uid now hinv).1
  · obtain rfl := Option.some.inj h
    rw [check_status_engine]
    exact hinv
  · obtain rfl := Option.some.inj h
    rw [provide_info_conv]
    exact hinv
  · obtain rfl := Option.some.inj h
    rw [escalate_conv]
    exact hinv
  · obtain rfl := Option.some.inj h
    rw [close_conv]
    exact hinv
  · obtain rfl := Option.some.inj h
    exact hinv
  · obtain rfl := Option.some.inj h
    exact noCat_eraseA hinv

theorem process_inv (e : BotEngine) (raw : RawMessage) (now ts : String)
    (hinv : noCategoryDrafts e.conversation_state = true) :
    noCategoryDrafts (process_message e raw now ts).2.conversation_state = true := by
  unfold process_message
  cases hf : (parse_message raw now).from_number with
  | none => simp only [hf]; exact hinv
  | some uid =>
      simp only [hf]
      have hinv4 := noCat_preRoute e uid (parse_message raw now).content now hinv
      cases hr : route_intent (preRoute e uid (parse_message raw now).content now) uid
          (extract_intent (parse_message raw now).content).1 (parse_message raw now).content
          (extract_intent (parse_message raw now).content).2 now ts with
      | none => simp only [hr]; exact hinv4
      | some r =>
          simp only [hr]
          exact noCat_add_to_history _ _ _ _
            (route_inv _ _ _ _ _ _ _ hinv4 r hr)

theorem processAll_inv (msgs : List (RawMessage × String × String)) :
    ∀ e : BotEngine, noCategoryDrafts e.conversation_state = true →
      noCategoryDrafts (processAll e msgs).conversation_state = true := by
  induction msgs with
  | nil => intro e h; exact h
  | cons p rest ih =>
      intro e h
      exact ih _ (process_inv e p.1 p.2.1 p.2.2 h)

theorem preRoute_mgr (e : BotEngine) (uid content now : String) :
    (preRoute e uid content now).appeal_manager = e.appeal_manager := by
  unfold preRoute initialize_user
  by_cases hp : (lookupA e.user_profiles uid).isSome <;> simp [hp]

theorem process_message_create (e : BotEngine) (raw : RawMessage) (now ts uid : String)
    (hfrom : raw.from_number = some uid)
    (hintent : (extract_intent (raw.body.getD "")).1 = "create_appeal")
    (hinv : noCategoryDrafts e.conversation_state = true) :
    (process_message e raw now ts).1
      = "📁 Kategori apa? (account/billing/technical/service/other)" ∧
    (process_message e raw now ts).2.appeal_manager = e.appeal_manager := by
  have hpf : (parse_message raw now).from_number = raw.from_number := rfl
  have hpc : (parse_message raw now).content = raw.body.getD "" := rfl
  have hinv4 : noCategoryDrafts (preRoute e uid (raw.body.getD "") now).conversation_state
      = true := noCat_preRoute e uid _ now hinv
  have hroute : route_intent (preRoute e uid (raw.body.getD "") now) uid "create_appeal"
      (raw.body.getD "") (extract_intent (raw.body.getD "")).2 now ts
      = some (handle_create_appeal (preRoute e uid (raw.body.getD "") now) uid
          (raw.body.getD "") (extract_intent (raw.body.getD "")).2 now ts) := by
    unfold route_intent
    simp
  simp only [process_message, hpf, hfrom, hpc, hintent, hroute,
             create_appeal_under_inv _ _ _ _ _ _ hinv4]
  exact ⟨trivial, preRoute_mgr e uid _ now⟩

/-- C3: starting from the engine's initial state, no message sequence ever
stores a `category` key into any sender's appeal draft (the only write of
`category` sits behind the branch that already requires one), so every
message classified as `create_appeal` is answered with the category prompt
and the appeal-creation branch is never reached: the appeal manager is
untouched by it. -/
theorem C3_category_never_stored (msgs : List (RawMessage × String × String))
    (raw : RawMessage) (now ts uid : String)
    (hfrom : raw.from_number = some uid)
    (hintent : (extract_intent (raw.body.getD "")).1 = "create_appeal") :
    noCategoryDrafts (processAll initialEngine msgs).conversation_state = true ∧
    (process_message (processAll initialEngine msgs) raw now ts).1
      = "📁 Kategori apa? (account/billing/technical/service/other)" ∧
    (process_message (processAll initialEngine msgs) raw now ts).2.appeal_manager
      = (processAll initialEngine msgs).appeal_manager := by
  have hinv := processAll_inv msgs initialEngine (by rfl)
  exact ⟨hinv, process_message_create _ raw now ts uid hfrom hintent hinv⟩

/-- C3 witness: after the four scenario messages, a message of `"A"` that
does classify as `create_appeal` still gets the category prompt and creates
nothing. -/
theorem C3_witness :
    noCategoryDrafts (processAll initialEngine scenarioMsgs).conversation_state = true ∧
    (process_message (processAll initialEngine scenarioMsgs)
        (⟨some "m5", some "A", none, some "report appeal"⟩ : RawMessage) "T5" "S5").1
      = "📁 Kategori apa? (account/billing/technical/service/other)" ∧
    (process_message (processAll initialEngine scenarioMsgs)
        (⟨some "m5", some "A", none, some "report appeal"⟩ : RawMessage) "T5" "S5").2.appeal_manager
      = (processAll initialEngine scenarioMsgs).appeal_manager :=
  C3_category_never_stored scenarioMsgs _ "T5" "S5" "A" rfl (by decide)

/-- C6 counterexample: a message with a sender id but no text is not
rejected without side effects — the engine treats it as empty text and does
create state: a user profile, a conversation state and an inbound history
entry for `""` all exist afterwards, even though the reply happens to be
the generic error reply. -/
theorem C6_counterexample :
    (process_message initialEngine (⟨none, some "6281234", none, none⟩ : RawMessage)
        "T" "S").1 = errorReply ∧
    (lookupA (process_message initialEngine (⟨none, some "6281234", none, none⟩ : RawMessage)
        "T" "S").2.user_profiles "6281234").isSome = true ∧
    histOf (process_message initialEngine (⟨none, some "6281234", none, none⟩ : RawMessage)
        "T" "S").2 "6281234"
      = [{ timestamp := "T", sender := "user", message := "" }] := by
  decide

/-- C6 (amended): only a missing sender id is rejected without side
effects: the engine replies with the generic error and its state is exactly
the prior state (the `TypeError` on `None[-4:]` is raised before any
mutation). A missing text, by contrast, is processed exactly like the empty
string — profile, conversation state and history entries included. -/
theorem C6_amended (e : BotEngine) (raw : RawMessage) (now ts uid : String)
    (i t : Option String) :
    (raw.from_number = none → process_message e raw now ts = (errorReply, e)) ∧
    (process_message e (⟨i, some uid, t, none⟩ : RawMessage) now ts
       = process_message e (⟨i, some uid, t, some ""⟩ : RawMessage) now ts) := by
  constructor
  · intro h
    have hpf : (parse_message raw now).from_number = none := h
    simp only [process_message, hpf]
    rfl
  · rfl

/-- C6 witness: the amended theorem at a concrete senderless message. -/
theorem C6_witness :
    process_message initialEngine (⟨some "m0", none, none, some "hi"⟩ : RawMessage) "T" "S"
      = (errorReply, initialEngine) :=
  (C6_amended initialEngine (⟨some "m0", none, none, some "hi"⟩ : RawMessage)
    "T" "S" "A" none none).1 rfl

theorem keysNodup_get_state (states : StatesMap) (uid now : String)
    (h : (states.map Prod.fst).Nodup) :
    (((get_state states uid now).2).map Prod.fst).Nodup := by
  unfold get_state
  cases hl : lookupA states uid with
  | some st => exact h
  | none => exact keysNodup_insertA _ _ _ h

theorem keysNodup_add_to_history (states : StatesMap) (uid msg sender now : String)
    (h : (states.map Prod.fst).Nodup) :
    ((add_to_history states uid msg sender now).map Prod.fst).Nodup := by
  unfold add_to_history
  exact keysNodup_insertA _ _ _ (keysNodup_get_state states uid now h)

theorem keysNodup_preRoute (e : BotEngine) (uid content now : String)
    (h : (e.conversation_state.map Prod.fst).Nodup) :
    (((preRoute e uid content now).conversation_state).map Prod.fst).Nodup := by
  unfold preRoute initialize_user
  by_cases hp : (lookupA e.user_profiles uid).isSome
  · simp only [hp, if_true]
    exact keysNodup_add_to_history _ _ _ _ _ (keysNodup_get_state _ _ _ h)
  · simp only [hp, if_false]
    exact keysNodup_add_to_history _ _ _ _ _
      (keysNodup_get_state _ _ _ (keysNodup_insertA _ _ _ h))

theorem preRoute_hist (e : BotEngine) (uid content now : String)
    (hcov : (lookupA e.user_profiles uid).isSome = false →
      lookupA e.conversation_state uid = none) :
    histS (preRoute e uid content now).conversation_state uid
      = histS e.conversation_state uid
          ++ [{ timestamp := now, sender := "user", message := content }] := by
  unfold preRoute initialize_user
  by_cases hp : (lookupA e.user_profiles uid).isSome
  · simp only [hp, if_true]
    rw [histS_add, histS_get_state]
  · have hnone : lookupA e.user_profiles uid = none := by
      cases h' : lookupA e.user_profiles uid
      · rfl
      · rw [h'] at hp; simp at hp
    have h0 : lookupA e.conversation_state uid = none := hcov (by rw [hnone]; rfl)
    simp only [hnone, Option.isSome_none, Bool.false_eq_true, if_false]
    rw [histS_add, histS_get_state]
    unfold histS
    rw [h0, lookupA_insertA_self]
    rfl

theorem add_attachment_frame (m : AppealManager) (id x now : String) :
    ((add_attachment m id x now).2.appeals.map Prod.fst = m.appeals.map Prod.fst) ∧
    (∀ k, k ≠ id → lookupA (add_attachment m id x now).2.appeals k = lookupA m.appeals k) ∧
    (add_attachment m id x now).2.user_appeals = m.user_appeals := by
  unfold add_attachment
  cases hl : lookupA m.appeals id with
  | none => simp
  | some a =>
      refine ⟨mapFst_insertA _ _ _ (by simp [hl]), fun k hk => ?_, rfl⟩
      exact lookupA_insertA_ne _ _ _ _ (fun h => hk h.symm)

theorem escalate_frame (m : AppealManager) (id x now : String) :
    ((escalate_appeal m id x now).2.appeals.map Prod.fst = m.appeals.map Prod.fst) ∧
    (∀ k, k ≠ id → lookupA (escalate_appeal m id x now).2.appeals k = lookupA m.appeals k) ∧
    (escalate_appeal m id x now).2.user_appeals = m.user_appeals := by
  unfold escalate_appeal
  cases hl : lookupA m.appeals id with
  | none => simp
  | some a =>
      refine ⟨mapFst_insertA _ _ _ (by simp [hl]), fun k hk => ?_, rfl⟩
      exact lookupA_insertA_ne _ _ _ _ (fun h => hk h.symm)

theorem close_frame (m : AppealManager) (id x now : String) :
    ((close_appeal m id x now).2.appeals.map Prod.fst = m.appeals.map Prod.fst) ∧
    (∀ k, k ≠ id → lookupA (close_appeal m id x now).2.appeals k = lookupA m.appeals k) ∧
    (close_appeal m id x now).2.user_appeals = m.user_appeals := by
  unfold close_appeal
  cases hl : lookupA m.appeals id with
  | none => simp
  | some a =>
      refine ⟨mapFst_insertA _ _ _ (by simp [hl]), fun k hk => ?_, rfl⟩
      exact lookupA_insertA_ne _ _ _ _ (fun h => hk h.symm)

theorem provide_mgr_frame (e : BotEngine) (uid msg now : String) :
    ((handle_provide_info e uid msg now).2.appeal_manager.appeals.map Prod.fst
       = e.appeal_manager.appeals.map Prod.fst) ∧
    (∀ aid, some aid ≠ latestIdOf e.appeal_manager uid →
       lookupA (handle_provide_info e uid msg now).2.appeal_manager.appeals aid
         = lookupA e.appeal_manager.appeals aid) ∧
    ((handle_provide_info e uid msg now).2.appeal_manager.user_appeals
       = e.appeal_manager.user_appeals) := by
  unfold handle_provide_info latestIdOf
  cases hl : (get_user_appeals e.appeal_manager uid).getLast? with
  | none => simp
  | some latest =>
      simp only [Option.map_some']
      refine ⟨(add_attachment_frame e.appeal_manager latest.appeal_id msg now).1,
              fun aid ha => ?_,
              (add_attachment_frame e.appeal_manager latest.appeal_id msg now).2.2⟩
      exact (add_attachment_frame e.appeal_manager latest.appeal_id msg now).2.1 aid
        (fun h => ha (by rw [h]))

theorem escalate_mgr_frame (e : BotEngine) (uid msg now : String) :
    ((handle_escalate e uid msg now).2.appeal_manager.appeals.map Prod.fst
       = e.appeal_manager.appeals.map Prod.fst) ∧
    (∀ aid, some aid ≠ latestIdOf e.appeal_manager uid →
       lookupA (handle_escalate e uid msg now).2.appeal_manager.appeals aid
         = lookupA e.appeal_manager.appeals aid) ∧
    ((handle_escalate e uid msg now).2.appeal_manager.user_appeals
       = e.appeal_manager.user_appeals) := by
  unfold handle_escalate latestIdOf
  cases hl : (get_user_appeals e.appeal_manager uid).getLast? with
  | none => simp
  | some latest =>
      simp only [Option.map_some']
      refine ⟨(escalate_frame e.appeal_manager latest.appeal_id _ now).1,
              fun aid ha => ?_,
              (escalate_frame e.appeal_manager latest.appeal_id _ now).2.2⟩
      exact (escalate_frame e.appeal_manager latest.appeal_id _ now).2.1 aid
        (fun h => ha (by rw [h]))

theorem close_mgr_frame (e : BotEngine) (uid msg now : String) :
    ((handle_close_appeal e uid msg now).2.appeal_manager.appeals.map Prod.fst
       = e.appeal_manager.appeals.map Prod.fst) ∧
    (∀ aid, some aid ≠ latestIdOf e.appeal_manager uid →
       lookupA (handle_close_appeal e uid msg now).2.appeal_manager.appeals aid
         = lookupA e.appeal_manager.appeals aid) ∧
    ((handle_close_appeal e uid msg now).2.appeal_manager.user_appeals
       = e.appeal_manager.user_appeals) := by
  unfold handle_close_appeal latestIdOf
  cases hl : (get_user_appeals e.appeal_manager uid).getLast? with
  | none => simp
  | some latest =>
      simp only [Option.map_some']
      refine ⟨(close_frame e.appeal_manager latest.appeal_id _ now).1,
              fun aid ha => ?_,
              (close_frame e.appeal_manager latest.appeal_id _ now).2.2⟩
      exact (close_frame e.appeal_manager latest.appeal_id _ now).2.1 aid
        (fun h => ha (by rw [h]))

theorem histOf_bot_append (e5 : BotEngine) (uid resp now : String) :
    histOf { e5 with conversation_state :=
               add_to_history e5.conversation_state uid resp "bot" now } uid
      = histS e5.conversation_state uid
          ++ [{ timestamp := now, sender := "bot", message := resp }] := by
  rw [histOf_eq_histS]
  show histS (add_to_history e5.conversation_state uid resp "bot" now) uid = _
  rw [histS_add]

theorem mgr_bot_append (e5 : BotEngine) (uid resp now : String) :
    ({ e5 with conversation_state :=
        add_to_history e5.conversation_state uid resp "bot" now } : BotEngine).appeal_manager
      = e5.appeal_manager := rfl


/-- C5 (amended): per inbound message with a sender id, in any state the
engine can actually reach (profiles cover conversation states, no draft
holds a category, keys are dictionary-unique): for the six handled intents
other than `cancel` exactly one inbound and one outbound history entry are
appended; for `cancel` the handler clears the sender's state — inbound entry
included — before the outbound entry is appended, so the history afterwards
holds only the reply; for `unknown` the handler aborts on the missing `menu`
template, the error reply is returned and no outbound entry is appended. In
every case the appeal table's keys are unchanged and at most the sender's
most recent appeal is updated. -/
theorem C5_per_message_effects (e : BotEngine) (raw : RawMessage) (now ts uid : String)
    (hfrom : raw.from_number = some uid)
    (hinv : noCategoryDrafts e.conversation_state = true)
    (hnodup : (e.conversation_state.map Prod.fst).Nodup)
    (hcov : (lookupA e.user_profiles uid).isSome = false →
      lookupA e.conversation_state uid = none) :
    (((extract_intent (raw.body.getD "")).1 = "create_appeal"
        ∨ (extract_intent (raw.body.getD "")).1 = "check_status"
        ∨ (extract_intent (raw.body.getD "")).1 = "provide_info"
        ∨ (extract_intent (raw.body.getD "")).1 = "escalate"
        ∨ (extract_intent (raw.body.getD "")).1 = "close_appeal"
        ∨ (extract_intent (raw.body.getD "")).1 = "get_help") →
      histOf (process_message e raw now ts).2 uid
        = histOf e uid
            ++ [{ timestamp := now, sender := "user", message := raw.body.getD "" },
                { timestamp := now, sender := "bot",
                  message := (process_message e raw now ts).1 }]) ∧
    ((extract_intent (raw.body.getD "")).1 = "cancel" →
      histOf (process_message e raw now ts).2 uid
        = [{ timestamp := now, sender := "bot",
             message := (process_message e raw now ts).1 }]) ∧
    ((extract_intent (raw.body.getD "")).1 = "unknown" →
      histOf (process_message e raw now ts).2 uid
        = histOf e uid
            ++ [{ timestamp := now, sender := "user", message := raw.body.getD "" }] ∧
      (process_message e raw now ts).1 = errorReply) ∧
    ((process_message e raw now ts).2.appeal_manager.appeals.map Prod.fst
       = e.appeal_manager.appeals.map Prod.fst) ∧
    (∀ aid, some aid ≠ latestIdOf e.appeal_manager uid →
       lookupA (process_message e raw now ts).2.appeal_manager.appeals aid
         = lookupA e.appeal_manager.appeals aid) ∧
    ((process_message e raw now ts).2.appeal_manager.user_appeals
       = e.appeal_manager.user_appeals) := by
  have hpf : (parse_message raw now).from_number = raw.from_number := rfl
  have hpc : (parse_message raw now).content = raw.body.getD "" := rfl
  have hinv4 := noCat_preRoute e uid (raw.body.getD "") now hinv
  have hmgr4 := preRoute_mgr e uid (raw.body.getD "") now
  have hhist4 := preRoute_hist e uid (raw.body.getD "") now hcov
  by_cases h1 : (extract_intent (raw.body.getD "")).1 = "create_appeal"
  · have hroute : route_intent (preRoute e uid (raw.body.getD "") now) uid
        (extract_intent (raw.body.getD "")).1 (raw.body.getD "")
        (extract_intent (raw.body.getD "")).2 now ts
        = some (handle_create_appeal (preRoute e uid (raw.body.getD "") now) uid
            (raw.body.getD "") (extract_intent (raw.body.getD "")).2 now ts) := by
      unfold route_intent
      simp [h1]
    simp only [process_message, hpf, hfrom, hpc, hroute,
               create_appeal_under_inv _ _ _ _ _ _ hinv4]
    refine ⟨fun _ => ?_, fun hc => absurd (h1 ▸ hc) (by decide), fun hu => absurd (h1 ▸ hu) (by decide), ?_, fun aid _ => ?_, ?_⟩
    · rw [histOf_eq_histS, histOf_eq_histS]
      show histS (add_to_history (get_state
          (preRoute e uid (raw.body.getD "") now).conversation_state uid now).2 uid _ "bot" now) uid = _
      rw [histS_add, histS_get_state, hhist4]
      simp
    · exact congrArg (fun m => m.appeals.map Prod.fst) hmgr4
    · exact congrArg (fun m => lookupA m.appeals aid) hmgr4
    · exact congrArg (fun m => m.user_appeals) hmgr4
  by_cases h2 : (extract_intent (raw.body.getD "")).1 = "check_status"
  · have hroute : route_intent (preRoute e uid (raw.body.getD "") now) uid
        (extract_intent (raw.body.getD "")).1 (raw.body.getD "")
        (extract_intent (raw.body.getD "")).2 now ts
        = some (handle_check_status (preRoute e uid (raw.body.getD "") now) uid) := by
      unfold route_intent
      simp [h2]
    simp only [process_message, hpf, hfrom, hpc, hroute]
    refine ⟨fun _ => ?_, fun hc => absurd (h2 ▸ hc) (by decide),
            fun hu => absurd (h2 ▸ hu) (by decide), ?_, fun aid _ => ?_, ?_⟩
    · rw [histOf_bot_append, check_status_engine, hhist4, histOf_eq_histS]
      simp
    · simp only [mgr_bot_append, check_status_engine, preRoute_mgr]
    · simp only [mgr_bot_append, check_status_engine, preRoute_mgr]
    · simp only [mgr_bot_append, check_status_engine, preRoute_mgr]
  by_cases h3 : (extract_intent (raw.body.getD "")).1 = "provide_info"
  · have hroute : route_intent (preRoute e uid (raw.body.getD "") now) uid
        (extract_intent (raw.body.getD "")).1 (raw.body.getD "")
        (extract_intent (raw.body.getD "")).2 now ts
        = some (handle_provide_info (preRoute e uid (raw.body.getD "") now) uid
            (raw.body.getD "") now) := by
      unfold route_intent
      simp [h3]
    have hfr := provide_mgr_frame (preRoute e uid (raw.body.getD "") now) uid
      (raw.body.getD "") now
    rw [hmgr4] at hfr
    simp only [process_message, hpf, hfrom, hpc, hroute]
    refine ⟨fun _ => ?_, fun hc => absurd (h3 ▸ hc) (by decide),
            fun hu => absurd (h3 ▸ hu) (by decide), ?_, fun aid ha => ?_, ?_⟩
    · rw [histOf_bot_append, provide_info_conv, hhist4, histOf_eq_histS]
      simp
    · exact hfr.1
    · exact hfr.2.1 aid ha
    · exact hfr.2.2
  by_cases h4 : (extract_intent (raw.body.getD "")).1 = "escalate"
  · have hroute : route_intent (preRoute e uid (raw.body.getD "") now) uid
        (extract_intent (raw.body.getD "")).1 (raw.body.getD "")
        (extract_intent (raw.body.getD "")).2 now ts
        = some (handle_escalate (preRoute e uid (raw.body.getD "") now) uid
            (raw.body.getD "") now) := by
      unfold route_intent
      simp [h4]
    have hfr := escalate_mgr_frame (preRoute e uid (raw.body.getD "") now) uid
      (raw.body.getD "") now
    rw [hmgr4] at hfr
    simp only [process_message, hpf, hfrom, hpc, hroute]
    refine ⟨fun _ => ?_, fun hc => absurd (h4 ▸ hc) (by decide),
            fun hu => absurd (h4 ▸ hu) (by decide), ?_, fun aid ha => ?_, ?_⟩
    · rw [histOf_bot_append, escalate_conv, hhist4, histOf_eq_histS]
      simp
    · exact hfr.1
    · exact hfr.2.1 aid ha
    · exact hfr.2.2
  by_cases h5 : (extract_intent (raw.body.getD "")).1 = "close_appeal"
  · have hroute : route_intent (preRoute e uid (raw.body.getD "") now) uid
        (extract_intent (raw.body.getD "")).1 (raw.body.getD "")
        (extract_intent (raw.body.getD "")).2 now ts
        = some (handle_close_appeal (preRoute e uid (raw.body.getD "") now) uid
            (raw.body.getD "") now) := by
      unfold route_intent
      simp [h5]
    have hfr := close_mgr_frame (preRoute e uid (raw.body.getD "") now) uid
      (raw.body.getD "") now
    rw [hmgr4] at hfr
    simp only [process_message, hpf, hfrom, hpc, hroute]
    refine ⟨fun _ => ?_, fun hc => absurd (h5 ▸ hc) (by decide),
            fun hu => absurd (h5 ▸ hu) (by decide), ?_, fun aid ha => ?_, ?_⟩
    · rw [histOf_bot_append, close_conv, hhist4, histOf_eq_histS]
      simp
    · exact hfr.1
    · exact hfr.2.1 aid ha
    · exact hfr.2.2
  by_cases h6 : (extract_intent (raw.body.getD "")).1 = "get_help"
  · have hroute : route_intent (preRoute e uid (raw.body.getD "") now) uid
        (extract_intent (raw.body.getD "")).1 (raw.body.getD "")
        (extract_intent (raw.body.getD "")).2 now ts
        = some (handle_get_help (preRoute e uid (raw.body.getD "") now)) := by
      unfold route_intent
      simp [h6]
    simp only [process_message, hpf, hfrom, hpc, hroute]
    refine ⟨fun _ => ?_, fun hc => absurd (h6 ▸ hc) (by decide),
            fun hu => absurd (h6 ▸ hu) (by decide), ?_, fun aid _ => ?_, ?_⟩
    · rw [histOf_bot_append]
      show histS (preRoute e uid (raw.body.getD "") now).conversation_state uid ++ _ = _
      rw [hhist4, histOf_eq_histS]
      simp
    · exact congrArg (fun m => m.appeals.map Prod.fst) hmgr4
    · exact congrArg (fun m => lookupA m.appeals aid) hmgr4
    · exact congrArg (fun m => m.user_appeals) hmgr4
  by_cases h7 : (extract_intent (raw.body.getD "")).1 = "cancel"
  · have hroute : route_intent (preRoute e uid (raw.body.getD "") now) uid
        (extract_intent (raw.body.getD "")).1 (raw.body.getD "")
        (extract_intent (raw.body.getD "")).2 now ts
        = some (handle_cancel (preRoute e uid (raw.body.getD "") now) uid) := by
      unfold route_intent
      simp [h7]
    have hz : histS (handle_cancel (preRoute e uid (raw.body.getD "") now)
        uid).2.conversation_state uid = [] := by
      show histS (eraseA (preRoute e uid (raw.body.getD "") now).conversation_state uid) uid = []
      unfold histS
      rw [lookupA_eraseA_self _ _ (keysNodup_preRoute e uid (raw.body.getD "") now hnodup)]
    simp only [process_message, hpf, hfrom, hpc, hroute]
    refine ⟨fun hk => ?_, fun _ => ?_, fun hu => absurd (h7 ▸ hu) (by decide),
            ?_, fun aid _ => ?_, ?_⟩
    · rcases hk with hk | hk | hk | hk | hk | hk <;> exact absurd (h7 ▸ hk) (by decide)
    · rw [histOf_bot_append, hz]
      rfl
    · exact congrArg (fun m => m.appeals.map Prod.fst) hmgr4
    · exact congrArg (fun m => lookupA m.appeals aid) hmgr4
    · exact congrArg (fun m => m.user_appeals) hmgr4
  have hroute : route_intent (preRoute e uid (raw.body.getD "") now) uid
      (extract_intent (raw.body.getD "")).1 (raw.body.getD "")
      (extract_intent (raw.body.getD "")).2 now ts = none := by
    unfold route_intent
    simp [h1, h2, h3, h4, h5, h6, h7]
  simp only [process_message, hpf, hfrom, hpc, hroute]
  refine ⟨fun hk => ?_, fun hc => absurd hc h7, fun _ => ⟨?_, by decide⟩,
          ?_, fun aid _ => ?_, ?_⟩
  · rcases hk with hk | hk | hk | hk | hk | hk
    · exact absurd hk h1
    · exact absurd hk h2
    · exact absurd hk h3
    · exact absurd hk h4
    · exact absurd hk h5
    · exact absurd hk h6
  · rw [histOf_eq_histS, hhist4, histOf_eq_histS]
  · exact congrArg (fun m => m.appeals.map Prod.fst) hmgr4
  · exact congrArg (fun m => lookupA m.appeals aid) hmgr4
  · exact congrArg (fun m => m.user_appeals) hmgr4


/-- C5 counterexample: two concrete messages violate the claimed
inbound+outbound history bookkeeping. An unknown-intent message (`"hello"`)
leaves only the inbound entry in history — the handler's `KeyError` on the
missing `menu` template skips the outbound append; a `cancel`-intent message
(`"cancel exit"`) leaves only the outbound entry — `clear_state` deletes the
history that already held the inbound entry. -/
theorem C5_counterexample :
    ((process_message initialEngine (⟨none, some "A", none, some "hello"⟩ : RawMessage)
        "T" "S").1 = errorReply ∧
     histOf (process_message initialEngine (⟨none, some "A", none, some "hello"⟩ : RawMessage)
        "T" "S").2 "A"
       = [{ timestamp := "T", sender := "user", message := "hello" }]) ∧
    histOf (process_message initialEngine (⟨none, some "A", none, some "cancel exit"⟩ : RawMessage)
        "T" "S").2 "A"
      = [{ timestamp := "T", sender := "bot",
           message := "❌ Dibatalkan. Ketik apapun untuk mulai lagi." }] := by
  decide

/-- C5 witness: the amended theorem at the fresh engine and the
`check_status`-classified message `"status check"`. -/
theorem C5_witness :
    (((extract_intent "status check").1 = "create_appeal"
        ∨ (extract_intent "status check").1 = "check_status"
        ∨ (extract_intent "status check").1 = "provide_info"
        ∨ (extract_intent "status check").1 = "escalate"
        ∨ (extract_intent "status check").1 = "close_appeal"
        ∨ (extract_intent "status check").1 = "get_help") →
      histOf (process_message initialEngine
          (⟨none, some "A", none, some "status check"⟩ : RawMessage) "T" "S").2 "A"
        = histOf initialEngine "A"
            ++ [{ timestamp := "T", sender := "user", message := "status check" },
                { timestamp := "T", sender := "bot",
                  message := (process_message initialEngine
                    (⟨none, some "A", none, some "status check"⟩ : RawMessage) "T" "S").1 }]) ∧
    ((extract_intent "status check").1 = "cancel" →
      histOf (process_message initialEngine
          (⟨none, some "A", none, some "status check"⟩ : RawMessage) "T" "S").2 "A"
        = [{ timestamp := "T", sender := "bot",
             message := (process_message initialEngine
               (⟨none, some "A", none, some "status check"⟩ : RawMessage) "T" "S").1 }]) ∧
    ((extract_intent "status check").1 = "unknown" →
      histOf (process_message initialEngine
          (⟨none, some "A", none, some "status check"⟩ : RawMessage) "T" "S").2 "A"
        = histOf initialEngine "A"
            ++ [{ timestamp := "T", sender := "user", message := "status check" }] ∧
      (process_message initialEngine
          (⟨none, some "A", none, some "status check"⟩ : RawMessage) "T" "S").1 = errorReply) ∧
    ((process_message initialEngine
        (⟨none, some "A", none, some "status check"⟩ : RawMessage) "T" "S").2.appeal_manager.appeals.map Prod.fst
       = initialEngine.appeal_manager.appeals.map Prod.fst) ∧
    (∀ aid, some aid ≠ latestIdOf initialEngine.appeal_manager "A" →
       lookupA (process_message initialEngine
           (⟨none, some "A", none, some "status check"⟩ : RawMessage) "T" "S").2.appeal_manager.appeals aid
         = lookupA initialEngine.appeal_manager.appeals aid) ∧
    ((process_message initialEngine
        (⟨none, some "A", none, some "status check"⟩ : RawMessage) "T" "S").2.appeal_manager.user_appeals
       = initialEngine.appeal_manager.user_appeals) :=
  C5_per_message_effects initialEngine (⟨none, some "A", none, some "status check"⟩ : RawMessage)
    "T" "S" "A" rfl (by decide) (by decide) (fun _ => rfl)

/-- The numeric value of a decimal digit character. -/
def charVal (c : Char) : Nat := c.toNat - 48

/-- The number denoted by a big-endian decimal digit string. -/
def decValue (l : List Char) : Nat := l.foldl (fun a c => 10 * a + charVal c) 0

/-- Every character of `l` is a decimal digit character. -/
def IsDigits (l : List Char) : Prop := ∀ c ∈ l, ∃ d, d < 10 ∧ c = digitChar d

theorem charVal_digitChar {d : Nat} (h : d < 10) : charVal (digitChar d) = d := by
  interval_cases d <;> rfl

theorem digitChar_lt {a b : Nat} (ha : a < 10) (hb : b < 10) (h : a < b) :
    digitChar a < digitChar b := by
  interval_cases a <;> interval_cases b <;> revert h <;> decide

theorem decValue_acc (l : List Char) :
    ∀ a : Nat, l.foldl (fun a c => 10 * a + charVal c) a
      = a * 10 ^ l.length + decValue l := by
  induction l with
  | nil => intro a; simp [decValue]
  | cons c t ih =>
      intro a
      show t.foldl _ (10 * a + charVal c) = _
      rw [ih (10 * a + charVal c)]
      have h2 : decValue (c :: t) = (10 * 0 + charVal c) * 10 ^ t.length + decValue t := by
        show t.foldl _ (10 * 0 + charVal c) = _
        rw [ih (10 * 0 + charVal c)]
      rw [h2]
      simp only [List.length_cons, pow_succ]
      ring

theorem decValue_cons (c : Char) (t : List Char) :
    decValue (c :: t) = charVal c * 10 ^ t.length + decValue t := by
  show t.foldl _ (10 * 0 + charVal c) = _
  rw [decValue_acc t (10 * 0 + charVal c)]
  ring

theorem decValue_replicate_zero (k : Nat) (l : List Char) :
    decValue (List.replicate k '0' ++ l) = decValue l := by
  induction k with
  | zero => rfl
  | succ n ih =>
      rw [List.replicate_succ, List.cons_append, decValue_cons, ih]
      have h0 : charVal '0' = 0 := by decide
      rw [h0]
      simp

theorem decValue_lt_pow {l : List Char} (h : IsDigits l) :
    decValue l < 10 ^ l.length := by
  induction l with
  | nil => simp [decValue]
  | cons c t ih =>
      rw [decValue_cons]
      rcases h c (List.mem_cons_self _ _) with ⟨d, hd, rfl⟩
      have h1 : decValue t < 10 ^ t.length :=
        ih (fun x hx => h x (List.mem_cons_of_mem _ hx))
      have h2 : charVal (digitChar d) ≤ 9 := by rw [charVal_digitChar hd]; omega
      calc charVal (digitChar d) * 10 ^ t.length + decValue t
          < charVal (digitChar d) * 10 ^ t.length + 10 ^ t.length := by omega
        _ = (charVal (digitChar d) + 1) * 10 ^ t.length := by ring
        _ ≤ 10 * 10 ^ t.length := by
              have : charVal (digitChar d) + 1 ≤ 10 := by omega
              exact Nat.mul_le_mul_right _ this
        _ = 10 ^ (t.length + 1) := by ring
        _ = 10 ^ (digitChar d :: t).length := by simp

theorem decValue_append_singleton (l : List Char) (c : Char) :
    decValue (l ++ [c]) = 10 * decValue l + charVal c := by
  unfold decValue
  rw [List.foldl_append]
  rfl

theorem decChars_spec : ∀ fuel n, n < fuel →
    decValue (decChars fuel n) = n ∧ IsDigits (decChars fuel n)
      ∧ 1 ≤ (decChars fuel n).length := by
  intro fuel
  induction fuel with
  | zero => intro n h; omega
  | succ f ih =>
      intro n h
      by_cases h10 : n < 10
      · simp only [decChars, if_pos h10]
        refine ⟨?_, ?_, by simp⟩
        · rw [decValue_cons]
          simp [decValue, charVal_digitChar h10]
        · intro c hc
          simp only [List.mem_singleton] at hc
          exact ⟨n, h10, hc⟩
      · simp only [decChars, if_neg h10]
        have hdivlt : n / 10 < n := Nat.div_lt_self (by omega) (by omega)
        have hdiv : n / 10 < f := by omega
        obtain ⟨hv, hd, hl⟩ := ih (n / 10) hdiv
        have hmod : n % 10 < 10 := Nat.mod_lt _ (by omega)
        refine ⟨?_, ?_, by simp⟩
        · rw [decValue_append_singleton, hv, charVal_digitChar hmod]
          omega
        · intro c hc
          rcases List.mem_append.mp hc with hc | hc
          · exact hd c hc
          · simp only [List.mem_singleton] at hc
            exact ⟨n % 10, hmod, hc⟩

theorem decChars_len_le : ∀ fuel n k, n < fuel → n < 10 ^ k → 1 ≤ k →
    (decChars fuel n).length ≤ k := by
  intro fuel
  induction fuel with
  | zero => intro n k h; omega
  | succ f ih =>
      intro n k h hk h1
      by_cases h10 : n < 10
      · simp only [decChars, if_pos h10, List.length_singleton]
        omega
      · simp only [decChars, if_neg h10]
        rcases k with _ | k'
        · omega
        · rcases k' with _ | k''
          · simp at hk
            omega
          · have hdivlt : n / 10 < n := Nat.div_lt_self (by omega) (by omega)
            have hdiv10 : n / 10 < 10 ^ (k'' + 1) := by
              rw [Nat.div_lt_iff_lt_mul (by omega : (0:Nat) < 10)]
              calc n < 10 ^ (k'' + 1 + 1) := hk
                _ = 10 ^ (k'' + 1) * 10 := by ring
            have := ih (n / 10) (k'' + 1) (by omega) hdiv10 (by omega)
            simp only [List.length_append, List.length_singleton]
            omega

theorem pad4_val (n : Nat) : decValue (pad4chars n) = n := by
  unfold pad4chars
  rw [decValue_replicate_zero]
  exact (decChars_spec (n + 1) n (by omega)).1

theorem pad4_inj {a b : Nat} (h : pad4chars a = pad4chars b) : a = b := by
  have := congrArg decValue h
  rwa [pad4_val, pad4_val] at this

theorem pad4_digits (n : Nat) : IsDigits (pad4chars n) := by
  intro c hc
  rcases List.mem_append.mp hc with hc | hc
  · rw [List.eq_of_mem_replicate hc]
    exact ⟨0, by omega, rfl⟩
  · exact (decChars_spec (n + 1) n (by omega)).2.1 c hc

theorem pad4_len4 {n : Nat} (h : n < 10000) : (pad4chars n).length = 4 := by
  have hle : (decChars (n + 1) n).length ≤ 4 :=
    decChars_len_le (n + 1) n 4 (by omega) (by norm_num; omega) (by omega)
  unfold pad4chars
  rw [List.length_append, List.length_replicate]
  omega

theorem lt_of_decValue_lt :
    ∀ l1 l2 : List Char, l1.length = l2.length → IsDigits l1 → IsDigits l2 →
      decValue l1 < decValue l2 → l1 < l2 := by
  intro l1
  induction l1 with
  | nil =>
      intro l2 hlen _ _ hv
      cases l2 with
      | nil => simp [decValue] at hv
      | cons c t => simp at hlen
  | cons c1 t1 ih =>
      intro l2 hlen hd1 hd2 hv
      cases l2 with
      | nil => simp at hlen
      | cons c2 t2 =>
          simp only [List.length_cons, Nat.succ.injEq] at hlen
          rcases hd1 c1 (List.mem_cons_self _ _) with ⟨d1, hd1', rfl⟩
          rcases hd2 c2 (List.mem_cons_self _ _) with ⟨d2, hd2', rfl⟩
          have ht1 : IsDigits t1 := fun x hx => hd1 x (List.mem_cons_of_mem _ hx)
          have ht2 : IsDigits t2 := fun x hx => hd2 x (List.mem_cons_of_mem _ hx)
          rw [decValue_cons, decValue_cons, charVal_digitChar hd1',
              charVal_digitChar hd2', hlen] at hv
          rcases Nat.lt_trichotomy d1 d2 with hlt | heq | hgt
          · exact List.Lex.rel (digitChar_lt hd1' hd2' hlt)
          · subst heq
            have hvt : decValue t1 < decValue t2 := by omega
            exact List.Lex.cons (ih t2 hlen ht1 ht2 hvt)
          · exfalso
            have hb1 : decValue t1 < 10 ^ t2.length := hlen ▸ decValue_lt_pow ht1
            have hb2 : decValue t2 < 10 ^ t2.length := decValue_lt_pow ht2
            have : d2 * 10 ^ t2.length + 10 ^ t2.length ≤ d1 * 10 ^ t2.length := by
              have : (d2 + 1) * 10 ^ t2.length ≤ d1 * 10 ^ t2.length :=
                Nat.mul_le_mul_right _ (by omega)
              linarith [this]
            omega

theorem list_lt_append (a b : List Char) (h : a < b) :
    ∀ p : List Char, (p ++ a) < (p ++ b) := by
  intro p
  induction p with
  | nil => exact h
  | cons x p' ih => exact List.Lex.cons ih

/-- The id format of `_generate_appeal_id` as a function of the timestamp
string and the count. -/
def genIdStr (ts : String) (c : Nat) : String :=
  "APP-" ++ ts ++ "-" ++ String.mk (pad4chars c)

theorem generate_appeal_id_eq (m : AppealManager) (ts : String) :
    generate_appeal_id m ts = genIdStr ts (m.appeals.length + 1) := rfl

theorem genIdStr_data (ts : String) (c : Nat) :
    (genIdStr ts c).data = "APP-".data ++ (ts.data ++ ("-".data ++ pad4chars c)) := by
  simp [genIdStr, String.data_append]

theorem genIdStr_inj {ts1 ts2 : String} {c1 c2 : Nat}
    (h14a : ts1.data.length = 14) (h14b : ts2.data.length = 14)
    (h : genIdStr ts1 c1 = genIdStr ts2 c2) : ts1 = ts2 ∧ c1 = c2 := by
  have hd := congrArg String.data h
  rw [genIdStr_data, genIdStr_data] at hd
  have h1 := List.append_inj hd rfl
  have h2 := List.append_inj h1.2 (h14a.trans h14b.symm)
  have hts : ts1 = ts2 := String.ext h2.1
  have h3 := List.append_inj h2.2 rfl
  exact ⟨hts, pad4_inj h3.2⟩

theorem genIdStr_lt {ts : String} {c1 c2 : Nat} (h1 : c1 < c2) (h2 : c2 ≤ 9999) :
    (genIdStr ts c1).data < (genIdStr ts c2).data := by
  rw [genIdStr_data, genIdStr_data]
  apply list_lt_append
  apply list_lt_append
  apply list_lt_append
  apply lt_of_decValue_lt
  · rw [pad4_len4 (by omega), pad4_len4 (by omega)]
  · exact pad4_digits c1
  · exact pad4_digits c2
  · rw [pad4_val, pad4_val]
    exact h1

theorem insertA_length_fresh {α : Type} (l : List (String × α)) (k : String) (v : α)
    (h : lookupA l k = none) : (insertA l k v).length = l.length + 1 := by
  induction l with
  | nil => rfl
  | cons hd t ih =>
      by_cases hk : hd.1 = k
      · simp [lookupA, hk] at h
      · simp only [lookupA, if_neg hk] at h
        simp [insertA, if_neg hk, ih h]

/-- One appeal-creation request: the arguments of one `create_appeal` call
together with its two clock readings. -/
structure CreateReq where
  user_id : String
  category : String
  subject : String
  description : String
  priority : String
  ts : String
  now : String

/-- A run of `create_appeal` over a request sequence: the final manager and
the allocated ids in creation order. -/
def createAll : AppealManager → List CreateReq → AppealManager × List String
  | m, [] => (m, [])
  | m, r :: rest =>
      let p := create_appeal m r.user_id r.category r.subject r.description r.priority r.ts r.now
      let q := createAll p.2 rest
      (q.1, p.1.appeal_id :: q.2)

/-- The ids the allocator hands out starting from a table of `n` appeals. -/
def idsFrom (n : Nat) : List CreateReq → List String
  | [] => []
  | r :: rest => genIdStr r.ts (n + 1) :: idsFrom (n + 1) rest

/-- Every key of the appeal table is an allocator-shaped id with a 14-digit
timestamp and a count within the table size. -/
def GoodMgr (m : AppealManager) : Prop :=
  ∀ p ∈ m.appeals, ∃ ts c, p.1 = genIdStr ts c ∧ ts.data.length = 14 ∧ c ≤ m.appeals.length

theorem create_step (m : AppealManager) (r : CreateReq)
    (hg : GoodMgr m) (h14 : r.ts.data.length = 14) :
    (create_appeal m r.user_id r.category r.subject r.description r.priority
        r.ts r.now).1.appeal_id = genIdStr r.ts (m.appeals.length + 1) ∧
    (create_appeal m r.user_id r.category r.subject r.description r.priority
        r.ts r.now).2.appeals.length = m.appeals.length + 1 ∧
    GoodMgr (create_appeal m r.user_id r.category r.subject r.description r.priority
        r.ts r.now).2 := by
  have hfresh : lookupA m.appeals (genIdStr r.ts (m.appeals.length + 1)) = none := by
    cases hl : lookupA m.appeals (genIdStr r.ts (m.appeals.length + 1)) with
    | none => rfl
    | some a =>
        exfalso
        rcases hg _ (lookupA_mem hl) with ⟨ts', c', hk, h14', hc2⟩
        rcases genIdStr_inj h14 h14' hk with ⟨-, hc⟩
        omega
  refine ⟨rfl, ?_, ?_⟩
  · show (insertA m.appeals (generate_appeal_id m r.ts) _).length = _
    rw [generate_appeal_id_eq]
    exact insertA_length_fresh _ _ _ hfresh
  · intro p hp
    have hlen : (create_appeal m r.user_id r.category r.subject r.description r.priority
        r.ts r.now).2.appeals.length = m.appeals.length + 1 := by
      show (insertA m.appeals (generate_appeal_id m r.ts) _).length = _
      rw [generate_appeal_id_eq]
      exact insertA_length_fresh _ _ _ hfresh
    rw [hlen]
    have hp' : p ∈ insertA m.appeals (genIdStr r.ts (m.appeals.length + 1)) _ := hp
    rcases mem_insertA hp' with hp2 | hp2
    · rcases hg _ hp2 with ⟨ts', c', hk, h14', hc2⟩
      exact ⟨ts', c', hk, h14', by omega⟩
    · exact ⟨r.ts, m.appeals.length + 1, by rw [hp2], h14, by omega⟩

theorem createAll_spec :
    ∀ (reqs : List CreateReq) (m : AppealManager), GoodMgr m →
      (∀ r ∈ reqs, r.ts.data.length = 14) →
      (createAll m reqs).2 = idsFrom m.appeals.length reqs ∧
      GoodMgr (createAll m reqs).1 := by
  intro reqs
  induction reqs with
  | nil => intro m hg _; exact ⟨rfl, hg⟩
  | cons r rest ih =>
      intro m hg h14
      obtain ⟨hid, hlen, hg2⟩ := create_step m r hg (h14 r (List.mem_cons_self _ _))
      obtain ⟨hids, hg3⟩ := ih _ hg2 (fun x hx => h14 x (List.mem_cons_of_mem _ hx))
      constructor
      · show _ :: (createAll _ rest).2 = genIdStr r.ts (m.appeals.length + 1)
            :: idsFrom (m.appeals.length + 1) rest
        rw [hid, hids, hlen]
      · exact hg3

theorem idsFrom_get :
    ∀ (reqs : List CreateReq) (n i : Nat),
      (idsFrom n reqs)[i]? = (reqs[i]?).map (fun r => genIdStr r.ts (n + i + 1)) := by
  intro reqs
  induction reqs with
  | nil => intro n i; simp [idsFrom]
  | cons r rest ih =>
      intro n i
      cases i with
      | zero => simp [idsFrom]
      | succ j =>
          simp only [idsFrom, List.getElem?_cons_succ]
          rw [ih (n + 1) j]
          have harith : n + 1 + j + 1 = n + (j + 1) + 1 := by omega
          rw [harith]

theorem mem_idsFrom :
    ∀ (reqs : List CreateReq) (n : Nat) (b : String), b ∈ idsFrom n reqs →
      ∃ r c, r ∈ reqs ∧ b = genIdStr r.ts c ∧ n + 1 ≤ c := by
  intro reqs
  induction reqs with
  | nil => intro n b hb; simp [idsFrom] at hb
  | cons r rest ih =>
      intro n b hb
      rcases List.mem_cons.mp hb with hb | hb
      · exact ⟨r, n + 1, List.mem_cons_self _ _, hb, by omega⟩
      · rcases ih (n + 1) b hb with ⟨r', c', hr', hb', hc'⟩
        exact ⟨r', c', List.mem_cons_of_mem _ hr', hb', by omega⟩

theorem idsFrom_pairwise :
    ∀ (reqs : List CreateReq) (n : Nat), (∀ r ∈ reqs, r.ts.data.length = 14) →
      (idsFrom n reqs).Pairwise (fun a b => a ≠ b) := by
  intro reqs
  induction reqs with
  | nil => intro n _; exact List.Pairwise.nil
  | cons r rest ih =>
      intro n h14
      refine List.pairwise_cons.mpr ⟨?_, ih (n + 1)
        (fun x hx => h14 x (List.mem_cons_of_mem _ hx))⟩
      intro b hb heq
      rcases mem_idsFrom rest (n + 1) b hb with ⟨r', c', hr', hb', hc'⟩
      rw [hb'] at heq
      rcases genIdStr_inj (h14 r (List.mem_cons_self _ _))
        (h14 r' (List.mem_cons_of_mem _ hr')) heq with ⟨-, hc⟩
      omega

/-- C10 counterexample: within one second-resolution timestamp the 10000th
id is not lexicographically greater than the 9999th — `f"{count:04d}"` stops
padding at five digits, and `"APP-…-10000"` sorts before `"APP-…-9999"`. -/
theorem C10_counterexample :
    generate_appeal_id
        { appeals := List.replicate 9999 ("x", sampleAppeal), user_appeals := [] }
        "20260108164027"
      ≠ generate_appeal_id
        { appeals := List.replicate 9998 ("x", sampleAppeal), user_appeals := [] }
        "20260108164027" ∧
    (generate_appeal_id
        { appeals := List.replicate 9999 ("x", sampleAppeal), user_appeals := [] }
        "20260108164027").data
      < (generate_appeal_id
        { appeals := List.replicate 9998 ("x", sampleAppeal), user_appeals := [] }
        "20260108164027").data := by
  have h1 : generate_appeal_id
      { appeals := List.replicate 9999 ("x", sampleAppeal), user_appeals := [] }
      "20260108164027" = genIdStr "20260108164027" 10000 := by
    show genIdStr "20260108164027"
      ((List.replicate 9999 (("x", sampleAppeal))).length + 1) = _
    rw [List.length_replicate]
  have h2 : generate_appeal_id
      { appeals := List.replicate 9998 ("x", sampleAppeal), user_appeals := [] }
      "20260108164027" = genIdStr "20260108164027" 9999 := by
    show genIdStr "20260108164027"
      ((List.replicate 9998 (("x", sampleAppeal))).length + 1) = _
    rw [List.length_replicate]
  rw [h1, h2]
  constructor
  · decide
  · decide

/-- C10 (amended): over any run of `create_appeal` requests from a fresh
manager whose timestamps are 14-character `strftime` strings, the allocated
ids are pairwise distinct across the whole run (uniqueness is unconditional);
but the lexicographic-growth half of the claim holds only while the counter
stays at most 9999 — at the 10000th appeal `f"{count:04d}"` outgrows its
padding and the order breaks (see the counterexample). Within that bound,
two creations sharing a second-resolution timestamp yield ids in strictly
increasing lexicographic order. -/
theorem C10_id_uniqueness (reqs : List CreateReq)
    (h14 : ∀ r ∈ reqs, r.ts.data.length = 14) :
    ((createAll { appeals := [], user_appeals := [] } reqs).2).Pairwise
      (fun a b => a ≠ b) ∧
    (∀ i j ri rj si sj, i < j → j + 1 ≤ 9999 →
       reqs[i]? = some ri → reqs[j]? = some rj → ri.ts = rj.ts →
       (createAll { appeals := [], user_appeals := [] } reqs).2[i]? = some si →
       (createAll { appeals := [], user_appeals := [] } reqs).2[j]? = some sj →
       si.data < sj.data) := by
  have hg0 : GoodMgr { appeals := [], user_appeals := [] } := by
    intro p hp
    simp at hp
  obtain ⟨hids, -⟩ := createAll_spec reqs { appeals := [], user_appeals := [] } hg0 h14
  have hlen0 : (AppealManager.mk [] []).appeals.length = 0 := rfl
  rw [hlen0] at hids
  rw [hids]
  constructor
  · exact idsFrom_pairwise reqs 0 h14
  · intro i j ri rj si sj hij hj9 hri hrj hts hsi hsj
    rw [idsFrom_get, hri, Option.map_some'] at hsi
    rw [idsFrom_get, hrj, Option.map_some'] at hsj
    obtain rfl := Option.some.inj hsi
    obtain rfl := Option.some.inj hsj
    rw [hts]
    exact genIdStr_lt (by omega) (by omega)

/-- C10 witness: two creations in the same second from the fresh manager. -/
theorem C10_witness :
    ((createAll { appeals := [], user_appeals := [] }
        [⟨"A", "technical", "S1", "D1", "normal", "20260108164027", "T1"⟩,
         ⟨"B", "billing", "S2", "D2", "normal", "20260108164027", "T2"⟩]).2).Pairwise
      (fun a b => a ≠ b) ∧
    (∀ i j ri rj si sj, i < j → j + 1 ≤ 9999 →
       ([⟨"A", "technical", "S1", "D1", "normal", "20260108164027", "T1"⟩,
         ⟨"B", "billing", "S2", "D2", "normal", "20260108164027", "T2"⟩]
           : List CreateReq)[i]? = some ri →
       ([⟨"A", "technical", "S1", "D1", "normal", "20260108164027", "T1"⟩,
         ⟨"B", "billing", "S2", "D2", "normal", "20260108164027", "T2"⟩]
           : List CreateReq)[j]? = some rj →
       ri.ts = rj.ts →
       (createAll { appeals := [], user_appeals := [] }
         [⟨"A", "technical", "S1", "D1", "normal", "20260108164027", "T1"⟩,
          ⟨"B", "billing", "S2", "D2", "normal", "20260108164027", "T2"⟩]).2[i]? = some si →
       (createAll { appeals := [], user_appeals := [] }
         [⟨"A", "technical", "S1", "D1", "normal", "20260108164027", "T1"⟩,
          ⟨"B", "billing", "S2", "D2", "normal", "20260108164027", "T2"⟩]).2[j]? = some sj →
       si.data < sj.data) :=
  C10_id_uniqueness
    [⟨"A", "technical", "S1", "D1", "normal", "20260108164027", "T1"⟩,
     ⟨"B", "billing", "S2", "D2", "normal", "20260108164027", "T2"⟩]
    (by decide)
